import Mathlib

/-!
Verification of the MyRDBMS engine (parser, storage, index manager, query
executor) against its natural-language specification.  The Python code is
shallowly embedded: rows are association lists from column names to typed
values, the storage layer is a map from table names to directory records,
and each executor pipeline is a total Lean function mirroring the Python
control flow (Python exceptions become Except values that the stage
handlers catch, as in the source).
-/

deriving instance DecidableEq for Except

namespace MyRDBMS

/-- A Python value as it occurs in rows: None, int, float (modelled as an
exact rational, adequate for the decimal literals the engine handles),
bool, or str. -/
inductive Value where
  | null : Value
  | intV (n : Int) : Value
  | floatV (q : Rat) : Value
  | boolV (b : Bool) : Value
  | strV (s : String) : Value
deriving DecidableEq, Repr

/-- A row is a Python dict from column names to values, modelled as an
association list with dict insertion semantics (dictSet). -/
abbrev Row := List (String × Value)

/-- First binding of a key in a row, mirroring dict lookup. -/
def lookupKey : Row → String → Option Value
  | [], _ => none
  | (k, v) :: rest, c => if k = c then some v else lookupKey rest c

/-- Python row.get(col): None when the key is absent. -/
def pyGet (r : Row) (c : String) : Value := (lookupKey r c).getD .null

/-- Python col in row. -/
def hasKey (r : Row) (c : String) : Bool := (lookupKey r c).isSome

/-- Python dict assignment d[k] = v: replace in place, else append. -/
def dictSet : Row → String → Value → Row
  | [], k, v => [(k, v)]
  | (k0, v0) :: rest, k, v =>
      if k0 = k then (k0, v) :: rest else (k0, v0) :: dictSet rest k v

/-- Keys of a row in order, mirroring dict.keys(). -/
def rowKeys (r : Row) : List String := r.map (·.1)

/-- Digits of a natural number; helper for the Python str model. -/
def pyStrOfInt (n : Int) : String := toString n

/-- Fraction digits of rem/den by long division, ending when the
expansion terminates or the fuel runs out. -/
def fracDigitsAux (den : Nat) : Nat → Nat → List Char
  | 0, _ => []
  | fuel + 1, rem =>
      if rem = 0 then []
      else Char.ofNat (48 + rem * 10 / den) :: fracDigitsAux den fuel (rem * 10 % den)

/-- Python str() of a float, for the rationals the engine produces: an
integral value prints with a trailing .0, any other value as its exact
decimal expansion, which is what Python prints for every decimal
literal the parser produces (1.5 prints as 1.5); a non-terminating
expansion, reachable only through AVG aggregates, is truncated after 64
digits, an admitted approximation of the shortest-repr rule. -/
def pyStrOfFloat (q : Rat) : String :=
  if q.den = 1 then toString q.num ++ ".0"
  else
    (if q.num < 0 then "-" else "") ++ toString (q.num.natAbs / q.den) ++ "." ++
      String.mk (fracDigitsAux q.den 64 (q.num.natAbs % q.den))

/-- Python str(value). -/
def pyStr : Value → String
  | .null => "None"
  | .intV n => pyStrOfInt n
  | .floatV q => pyStrOfFloat q
  | .boolV b => if b then "True" else "False"
  | .strV s => s

/-- Python str(row.get(col, '')): stringify the stored value, with the
empty string when the key is absent. -/
def pyGetStr (r : Row) (c : String) : String :=
  match lookupKey r c with
  | some v => pyStr v
  | none => ""

/-- Numeric view of a value for Python == and float(): bools count as
0 or 1, strings and None are not numeric. -/
def asNumQ : Value → Option Rat
  | .intV n => some (n : Rat)
  | .floatV q => some q
  | .boolV b => some (if b then (1 : Rat) else 0)
  | _ => none

/-- Python == on values: numbers (including bools) compare numerically,
strings by content, None only to None, everything else is unequal. -/
def pyEqValue (a b : Value) : Bool :=
  match asNumQ a, asNumQ b with
  | some x, some y => x == y
  | _, _ =>
    match a, b with
    | .null, .null => true
    | .strV s, .strV t => s == t
    | _, _ => false

/-- Python bool(value) for the non-None, non-str cases reached by the
BOOLEAN coercion. -/
def pyTruthy : Value → Bool
  | .null => false
  | .intV n => n ≠ 0
  | .floatV q => q ≠ 0
  | .boolV b => b
  | .strV s => s ≠ ""

/-! The string manipulation the engine does is re-implemented over
character lists by structural recursion (with fuel for the splitter),
so all of it evaluates inside the kernel; each helper mirrors the
corresponding Python string method. -/

def sToUpper (s : String) : String := String.mk (s.toList.map Char.toUpper)

def sToLower (s : String) : String := String.mk (s.toList.map Char.toLower)

/-- Python s.strip(): whitespace off both ends. -/
def sTrim (s : String) : String :=
  String.mk (((s.toList.dropWhile Char.isWhitespace).reverse.dropWhile
    Char.isWhitespace).reverse)

/-- Is the first list a prefix of the second. -/
def prefixOfC : List Char → List Char → Bool
  | [], _ => true
  | _ :: _, [] => false
  | a :: as, b :: bs => a = b && prefixOfC as bs

/-- Does the string start with the given prefix. -/
def sStartsWith (s pre : String) : Bool := prefixOfC pre.toList s.toList

/-- Does the string end with the given suffix. -/
def strEndsWith (s suff : String) : Bool :=
  s.toList.reverse.take suff.length = suff.toList.reverse

/-- Splitter on a nonempty separator, structural on a fuel argument
that bounds the number of characters consumed. -/
def splitOnFuelC (sep : List Char) : Nat → List Char → List Char → List (List Char)
  | 0, rem, acc => [acc.reverse ++ rem]
  | _ + 1, [], acc => [acc.reverse]
  | fuel + 1, c :: rest, acc =>
      if prefixOfC sep (c :: rest) then
        acc.reverse :: splitOnFuelC sep fuel (List.drop sep.length (c :: rest)) []
      else splitOnFuelC sep fuel rest (c :: acc)

/-- Python s.split(sep) for a nonempty separator (the full split). -/
def sSplitOn (s sep : String) : List String :=
  if sep = "" then [s]
  else (splitOnFuelC sep.toList (s.toList.length + 1) s.toList []).map String.mk

def sIntercalate (sep : String) : List String → String
  | [] => ""
  | [x] => x
  | x :: rest => x ++ sep ++ sIntercalate sep rest

/-- Substring membership, Python op in clause. -/
def containsSub (s sub : String) : Bool := (sSplitOn s sub).length > 1

/-- Python s.split(sep, 1): split at the first occurrence only. -/
def splitOnce (s sep : String) : List String :=
  match sSplitOn s sep with
  | [] => []
  | x :: rest =>
      if rest.isEmpty then [x] else [x, sIntercalate sep rest]

/-- Strip the given characters from both ends, Python s.strip(chars). -/
def trimCharsBoth (s : String) (cs : List Char) : String :=
  let l := (s.toList.dropWhile (cs.contains ·)).reverse
  String.mk ((l.dropWhile (cs.contains ·)).reverse)

/-- Strip trailing occurrences of one character, Python s.rstrip(c). -/
def rstripChar (s : String) (c : Char) : String :=
  String.mk ((s.toList.reverse.dropWhile (· = c)).reverse)

/-- Split at every character satisfying the predicate. -/
def splitChAux (p : Char → Bool) : List Char → List Char → List (List Char)
  | [], acc => [acc.reverse]
  | c :: rest, acc =>
      if p c then acc.reverse :: splitChAux p rest []
      else splitChAux p rest (c :: acc)

/-- Python whitespace split: runs of whitespace separate words, empties
dropped. -/
def wsSplit (s : String) : List String :=
  ((splitChAux Char.isWhitespace s.toList []).map String.mk).filter (· ≠ "")

/-- Python s[n:]. -/
def sDrop (s : String) (n : Nat) : String := String.mk (s.toList.drop n)

/-- Python s[:-n]. -/
def sDropRight (s : String) (n : Nat) : String :=
  String.mk (s.toList.take (s.toList.length - n))


/-- All characters are decimal digits and the list is nonempty. -/
def digitsVal : List Char → Option Nat
  | [] => none
  | cs => cs.foldlM (fun acc c => if c.isDigit then some (acc * 10 + (c.toNat - 48)) else none) 0

/-- Split a character list at the first dot. -/
def splitDot : List Char → Option (List Char × List Char)
  | [] => none
  | c :: rest =>
      if c = '.' then some ([], rest)
      else (splitDot rest).map (fun p => (c :: p.1, p.2))

/-- Python int(s) on a string: optional sign then digits, surrounding
whitespace stripped; none models ValueError. -/
def pyParseInt (s : String) : Option Int :=
  let cs := (sTrim s).toList
  match cs with
  | '-' :: rest => (digitsVal rest).map (fun n => -(n : Int))
  | '+' :: rest => (digitsVal rest).map (fun n => (n : Int))
  | _ => (digitsVal cs).map (fun n => (n : Int))

/-- Value of an unsigned decimal literal with an optional fraction part. -/
def unsignedFloatVal (cs : List Char) : Option Rat :=
  match splitDot cs with
  | none => (digitsVal cs).map (fun n => (n : Rat))
  | some (ip, fp) =>
      match ip, fp with
      | [], [] => none
      | [], _ => (digitsVal fp).map (fun f => (f : Rat) / ((10 : Rat) ^ fp.length))
      | _, [] => (digitsVal ip).map (fun n => (n : Rat))
      | _, _ =>
          match digitsVal ip, digitsVal fp with
          | some n, some f => some ((n : Rat) + (f : Rat) / ((10 : Rat) ^ fp.length))
          | _, _ => none

/-- Split a character list at the first exponent marker. -/
def splitExpC : List Char → List Char × Option (List Char)
  | [] => ([], none)
  | c :: rest =>
      if c = 'e' ∨ c = 'E' then ([], some rest)
      else
        let p := splitExpC rest
        (c :: p.1, p.2)

/-- Python float(s): optional sign, decimal mantissa, optional signed
scientific exponent, surrounding whitespace stripped; none models
ValueError.  The special values inf and nan and digit underscores are
not representable here (the engine never produces them from its own
literals), a stated model boundary. -/
def pyParseFloat (s : String) : Option Rat :=
  let cs := (sTrim s).toList
  let p : Bool × List Char :=
    match cs with
    | '-' :: rest => (true, rest)
    | '+' :: rest => (false, rest)
    | _ => (false, cs)
  match splitExpC p.2 with
  | (mant, none) => (unsignedFloatVal mant).map (fun m => if p.1 then -m else m)
  | (mant, some ex) =>
      let e : Option Int :=
        match ex with
        | '-' :: er => (digitsVal er).map (fun n => -(n : Int))
        | '+' :: er => (digitsVal er).map (fun n => (n : Int))
        | _ => (digitsVal ex).map (fun n => (n : Int))
      match unsignedFloatVal mant, e with
      | some m, some k =>
          let v := m * ((10 : Rat) ^ k)
          some (if p.1 then -v else v)
      | _, _ => none

/-- Python int(value): ints pass through, floats truncate toward zero,
bools become 0 or 1, strings parse; none models an exception. -/
def pyIntCast : Value → Option Int
  | .intV n => some n
  | .floatV q => some (if q ≥ 0 then q.floor else q.ceil)
  | .boolV b => some (if b then 1 else 0)
  | .strV s => pyParseInt s
  | .null => none

/-- Python float(value); none models an exception. -/
def pyFloatCast : Value → Option Rat
  | .strV s => pyParseFloat s
  | v => asNumQ v

/-- Lexicographic code-point comparison, Python str less-than. -/
def strLtPy : List Char → List Char → Bool
  | [], [] => false
  | [], _ :: _ => true
  | _ :: _, [] => false
  | a :: as, b :: bs =>
      if a = b then strLtPy as bs else a.toNat < b.toNat

/-! ## Parsed statement records (engine/parser.py dataclasses) -/

/-- DataType enum from engine/types.py. -/
inductive DataType where
  | INT | VARCHAR | TEXT | BOOLEAN | DECIMAL | TIMESTAMP | DATE
deriving DecidableEq, Repr

/-- The .value string of a DataType member. -/
def DataType.value : DataType → String
  | .INT => "INT"
  | .VARCHAR => "VARCHAR"
  | .TEXT => "TEXT"
  | .BOOLEAN => "BOOLEAN"
  | .DECIMAL => "DECIMAL"
  | .TIMESTAMP => "TIMESTAMP"
  | .DATE => "DATE"

/-- DataType(s) constructor on an uppercased token; outside the enum it
raises ValueError, which _parse_create_table turns into TEXT. -/
def dataTypeFromString (s : String) : Option DataType :=
  if s = "INT" then some .INT
  else if s = "VARCHAR" then some .VARCHAR
  else if s = "TEXT" then some .TEXT
  else if s = "BOOLEAN" then some .BOOLEAN
  else if s = "DECIMAL" then some .DECIMAL
  else if s = "TIMESTAMP" then some .TIMESTAMP
  else if s = "DATE" then some .DATE
  else none

/-- ConstraintType enum from engine/types.py. -/
inductive ConstraintType where
  | PRIMARY_KEY | UNIQUE | NOT_NULL | FOREIGN_KEY | CHECK
deriving DecidableEq, Repr

/-- ColumnDefinition dataclass from engine/types.py. -/
structure ColumnDefinition where
  name : String
  dataType : DataType
  constraints : List ConstraintType
  maxLength : Option Int := none
deriving DecidableEq, Repr

structure CreateTableQuery where
  tableName : String
  columns : List ColumnDefinition
deriving DecidableEq, Repr

structure InsertQuery where
  tableName : String
  values : List Value
deriving DecidableEq, Repr

structure JoinClause where
  jtype : String
  table : String
  aliasName : Option String := none
  onClause : Option String := none
deriving DecidableEq, Repr

structure SelectQuery where
  columns : List String
  tableName : String
  whereClause : Option String := none
  joinClause : Option JoinClause := none
  groupBy : Option String := none
  orderBy : Option String := none
  limit : Option Nat := none
deriving DecidableEq, Repr

structure UpdateQuery where
  tableName : String
  setClause : List (String × Value)
  whereClause : Option String := none
deriving DecidableEq, Repr

structure DeleteQuery where
  tableName : String
  whereClause : Option String := none
deriving DecidableEq, Repr

structure DropTableQuery where
  tableName : String
deriving DecidableEq, Repr

/-- The discriminated union of parsed statements the executor receives. -/
inductive PQuery where
  | createT (q : CreateTableQuery)
  | insertQ (q : InsertQuery)
  | selectQ (q : SelectQuery)
  | updateQ (q : UpdateQuery)
  | deleteQ (q : DeleteQuery)
  | dropT (q : DropTableQuery)
deriving DecidableEq, Repr

/-! ## Storage state (engine/storage.py)

The data directory is modelled per database: a map from table names to
directory records holding the three kinds of files the engine writes,
plus the meta.json table registry.  A column dict of a schema is
modelled with one optional field per dict key, so that the key renaming
done by serialization (type becomes data_type) is visible: a field of
none means the key is absent from the dict. -/

/-- One column dict as it appears in a schema payload or in schema.json.
The executor writes the key named type; serialization stores it under
data_type; a reader using get with a default sees the difference. -/
structure ColDict where
  nameKey : Option String := none
  typeKey : Option String := none
  dataTypeKey : Option String := none
  constraints : List String := []
  maxLength : Option Int := none
deriving DecidableEq, Repr

/-- Content of schema.json: normally a schema dict, but _execute_update
routes the whole row list through save_table_schema, so a row list can
end up there as well (json.dump writes whatever it is given). -/
inductive SchemaFile where
  | dict (name : String) (columns : List ColDict)
  | rowsList (rows : List Row)
deriving DecidableEq, Repr

/-- An index file: the pickled dict mapping a column value to the list
of row positions holding it. -/
abbrev IndexFile := List (Value × List Nat)

/-- One table directory: schema.json, data.pkl and the index files. -/
structure TableDir where
  schemaFile : Option SchemaFile := none
  dataFile : Option (List Row) := none
  indexFiles : List (String × IndexFile) := []
deriving DecidableEq, Repr

/-- The state of one database directory. -/
structure DBState where
  tables : List (String × TableDir) := []
  meta : List String := []
deriving DecidableEq, Repr

def emptyState : DBState := {}

/-- Directory lookup by name (first match). -/
def getTD : List (String × TableDir) → String → Option TableDir
  | [], _ => none
  | (n, d) :: rest, t => if n = t then some d else getTD rest t

/-- Replace the first entry for a table, appending when absent. -/
def setTD : List (String × TableDir) → String → TableDir → List (String × TableDir)
  | [], t, td => [(t, td)]
  | (n, d) :: rest, t, td =>
      if n = t then (n, td) :: rest else (n, d) :: setTD rest t td

/-- Remove a table directory (rmtree: the name cannot repeat on disk). -/
def removeTD (l : List (String × TableDir)) (t : String) : List (String × TableDir) :=
  l.filter (fun e => e.1 ≠ t)

def getIdx : List (String × IndexFile) → String → Option IndexFile
  | [], _ => none
  | (n, f) :: rest, c => if n = c then some f else getIdx rest c

def setIdx : List (String × IndexFile) → String → IndexFile → List (String × IndexFile)
  | [], c, f => [(c, f)]
  | (n, g) :: rest, c, f =>
      if n = c then (n, f) :: rest else (n, g) :: setIdx rest c f

/-- Storage.table_exists: the table directory exists. -/
def tableExists (st : DBState) (t : String) : Bool := (getTD st.tables t).isSome

/-- Storage.get_all_rows: the pickled row list, with missing or
unreadable files yielding an empty list (the except branch). -/
def getAllRows (st : DBState) (t : String) : List Row :=
  match getTD st.tables t with
  | some td => td.dataFile.getD []
  | none => []

/-- Storage.load_table_schema: schema.json content if present. -/
def loadTableSchema (st : DBState) (t : String) : Option SchemaFile :=
  match getTD st.tables t with
  | some td => td.schemaFile
  | none => none

/-- Payload handed to save_table_schema: the CREATE TABLE schema dict,
or (through the reflection fallback of _execute_update) a raw row list. -/
inductive SchemaPayload where
  | dict (name : String) (columns : List ColDict)
  | rowsList (rows : List Row)
deriving DecidableEq, Repr

/-- Storage._serialize_schema: when the payload is a dict with a columns
key, each column dict is rebuilt with the type value stored under the
data_type key (the original type key is gone); a row list passes through
unchanged because the membership test on a list fails. -/
def serializePayload : SchemaPayload → SchemaFile
  | .dict name cols =>
      .dict name (cols.map (fun c =>
        { nameKey := c.nameKey
          typeKey := none
          dataTypeKey := c.typeKey
          constraints := c.constraints
          maxLength := c.maxLength }))
  | .rowsList rows => .rowsList rows

/-- Storage.save_table_schema: create the table directory when missing,
write schema.json, and append the registry entry when new. -/
def saveTableSchemaState (st : DBState) (t : String) (p : SchemaPayload) : DBState :=
  let td := (getTD st.tables t).getD {}
  { tables := setTD st.tables t { td with schemaFile := some (serializePayload p) },
    meta := if st.meta.contains t then st.meta else st.meta ++ [t] }

/-- Storage.insert_row: load the current list (missing or corrupt gives
an empty list), append, write back; opening the data file fails when the
table directory is missing. -/
def insertRowE (st : DBState) (t : String) (row : Row) : Except String DBState :=
  match getTD st.tables t with
  | none => .error "No such file or directory"
  | some td =>
      let td2 := { td with dataFile := some (td.dataFile.getD [] ++ [row]) }
      .ok { st with tables := setTD st.tables t td2 }

/-- Storage.delete_table: rmtree the directory and drop the registry
entry; false when the directory does not exist. -/
def deleteTableState (st : DBState) (t : String) : Bool × DBState :=
  match getTD st.tables t with
  | none => (false, st)
  | some _ =>
      (true, { tables := removeTD st.tables t,
               meta := st.meta.filter (· ≠ t) })

/-! ## Index manager (engine/index_manager.py) -/

/-- index[key].append(i) on the pickled dict, creating the entry at the
first occurrence; dict key equality is Python ==. -/
def dictAppendPos : IndexFile → Value → Nat → IndexFile
  | [], k, p => [(k, [p])]
  | (k0, ps) :: rest, k, p =>
      if pyEqValue k0 k then (k0, ps ++ [p]) :: rest
      else (k0, ps) :: dictAppendPos rest k p

/-- The index-building scan of create_index: enumerate rows, skip null
keys, record positions. -/
def buildIndexAux : List Row → String → Nat → IndexFile → IndexFile
  | [], _, _, acc => acc
  | r :: rs, c, i, acc =>
      let k := pyGet r c
      buildIndexAux rs c (i + 1) (if k = .null then acc else dictAppendPos acc k i)

def buildIndex (rows : List Row) (c : String) : IndexFile :=
  buildIndexAux rows c 0 []

/-- IndexManager.create_index: full scan of the row store, makedirs the
table directory, write the index file. -/
def createIndexState (st : DBState) (t c : String) : DBState :=
  let rows := getAllRows st t
  let td := (getTD st.tables t).getD {}
  let td2 := { td with indexFiles := setIdx td.indexFiles c (buildIndex rows c) }
  { st with tables := setTD st.tables t td2 }

/-- Dict membership value in index, with Python == on keys. -/
def idxLookup : IndexFile → Value → Option (List Nat)
  | [], _ => none
  | (k, ps) :: rest, v => if pyEqValue k v then some ps else idxLookup rest v

/-- IndexManager.get_by_index: empty when the index file is absent or
the value unknown; otherwise dereference the stored positions against a
freshly read row store (rows[i] raises when out of range). -/
def getByIndex (st : DBState) (t c : String) (v : Value) : Except String (List Row) :=
  match getTD st.tables t with
  | none => .ok []
  | some td =>
      match getIdx td.indexFiles c with
      | none => .ok []
      | some idx =>
          match idxLookup idx v with
          | none => .ok []
          | some ps =>
              let rows := getAllRows st t
              ps.mapM (fun p =>
                match rows[p]? with
                | some r => Except.ok r
                | none => Except.error "list index out of range")

/-! ## Query executor (engine/query_executor.py) -/

/-- The result dict of one statement; a field of none is an absent key. -/
structure ExecResult where
  error : Option String := none
  message : Option String := none
  columns : Option (List String) := none
  rows : Option (List Row) := none
  count : Option Nat := none
  rowCount : Option Nat := none
  success : Option Bool := none
  execTime : Option Nat := none
  tableField : Option String := none
  columnsCount : Option Nat := none
  rowField : Option Row := none
deriving DecidableEq, Repr

def errResult (msg : String) : ExecResult := { error := some msg }

/-! ### WHERE evaluation (_apply_where) -/

/-- Operator list in source order: multi-character operators first. -/
def whereOps : List String := ["!=", ">=", "<=", "=", ">", "<"]

/-- Remove one matching pair of quotes from the literal. -/
def stripQuotesPaired (raw : String) : String :=
  if (sStartsWith raw "'" && strEndsWith raw "'") ||
     (sStartsWith raw "\"" && strEndsWith raw "\"") then
    sDropRight (sDrop raw 1) 1
  else raw

/-- Scan the operator list: the first operator occurring in the clause
whose full split yields exactly two parts wins; otherwise keep looking. -/
def findWhereOp : List String → String → Option (String × String × String)
  | [], _ => none
  | op :: rest, clause =>
      if containsSub clause op then
        match sSplitOn clause op with
        | [a, b] => some (op, sTrim a, stripQuotesPaired (sTrim b))
        | _ => findWhereOp rest clause
      else findWhereOp rest clause

/-- Numeric comparison branch of _apply_where. -/
def numCompare (op : String) (a b : Rat) : Bool :=
  if op = "=" then a == b
  else if op = "!=" then a != b
  else if op = ">" then b < a
  else if op = "<" then a < b
  else if op = ">=" then b ≤ a
  else if op = "<=" then a ≤ b
  else false

/-- String comparison branch (all six operators, code-point order). -/
def strCompareFull (op : String) (a b : String) : Bool :=
  if op = "=" then a == b
  else if op = "!=" then a != b
  else if op = ">" then strLtPy b.toList a.toList
  else if op = "<" then strLtPy a.toList b.toList
  else if op = ">=" then !(strLtPy a.toList b.toList)
  else if op = "<=" then !(strLtPy b.toList a.toList)
  else false

/-- The except-branch comparison: only equality and inequality append. -/
def strCompareEqOnly (op : String) (a b : String) : Bool :=
  if op = "=" then a == b
  else if op = "!=" then a != b
  else false

/-- Outcome of float(row_value): none models a raised ValueError, some
none models a null cell (the conversion is skipped and num_row is None),
some (some q) a numeric result. -/
def rowFloatAttempt : Value → Option (Option Rat)
  | .null => some none
  | .strV s => (pyParseFloat s).map some
  | v => (asNumQ v).map some

/-- Keep-row test of _apply_where for one row: numeric comparison when
both sides convert, string fallback when the cell is null, and the
except branch (equality only) when a float conversion raises. -/
def whereRowKeep (op col value : String) (row : Row) : Bool :=
  if hasKey row col = false then false
  else
    let rv := pyGet row col
    let rvStr := if rv = .null then "" else pyStr rv
    match rowFloatAttempt rv, pyParseFloat value with
    | some (some a), some b => numCompare op a b
    | some none, some _ => strCompareFull op rvStr value
    | _, _ => strCompareEqOnly op rvStr value

/-- _apply_where: parse the single comparison and filter. -/
def applyWhere (rows : List Row) (clause : String) : List Row :=
  if clause = "" then rows
  else
    match findWhereOp whereOps clause with
    | none => rows
    | some (op, col, value) =>
        if col = "" then rows
        else rows.filter (whereRowKeep op col value)

/-! ### GROUP BY (_apply_group_by) -/

/-- groups[group_key].append(row) with Python == dict keys. -/
def groupDictAppend : List (Value × List Row) → Value → Row → List (Value × List Row)
  | [], k, r => [(k, [r])]
  | (k0, g) :: rest, k, r =>
      if pyEqValue k0 k then (k0, g ++ [r]) :: rest
      else (k0, g) :: groupDictAppend rest k r

def buildGroups : List Row → String → List (Value × List Row) → List (Value × List Row)
  | [], _, acc => acc
  | r :: rs, gb, acc => buildGroups rs gb (groupDictAppend acc (pyGet r gb) r)

/-- isinstance(val, (int, float)): bools are ints in Python. -/
def isNumLike (v : Value) : Bool := (asNumQ v).isSome

/-- Normalize a numeric addend: bools add as ints. -/
def normNum : Value → Value
  | .boolV b => .intV (if b then 1 else 0)
  | v => v

/-- Python + on the numeric tower: int with int stays int, a float on
either side gives float. -/
def numAdd : Value → Value → Value
  | .intV a, .intV b => .intV (a + b)
  | .intV a, .floatV q => .floatV ((a : Rat) + q)
  | .floatV p, .intV b => .floatV (p + (b : Rat))
  | .floatV p, .floatV q => .floatV (p + q)
  | a, _ => a

def valAsRat : Value → Rat
  | .intV n => (n : Rat)
  | .floatV q => q
  | _ => 0

/-- SUM(col): fold numeric cells, skipping everything else. -/
def sumAgg (grp : List Row) (col : String) : Value :=
  grp.foldl (fun acc r =>
    let v := pyGet r col
    if isNumLike v then numAdd acc (normNum v) else acc) (Value.intV 0)

/-- AVG(col): mean over numeric cells, int 0 when none (true division
makes the mean a float). -/
def avgAgg (grp : List Row) (col : String) : Value :=
  let s := grp.foldl (fun (acc : Value × Nat) r =>
    let v := pyGet r col
    if isNumLike v then (numAdd acc.1 (normNum v), acc.2 + 1) else acc)
    (Value.intV 0, 0)
  if s.2 > 0 then .floatV (valAsRat s.1 / (s.2 : Rat)) else .intV 0

/-- Fill one result row with the aggregates requested in the column
list; the count of rows with a non-null cell backs COUNT(col). -/
def applyAggCols (grp : List Row) (cols : List String) (acc : Row) : Row :=
  cols.foldl (fun row col =>
    let up := sToUpper col
    if sStartsWith up "COUNT(" && strEndsWith up ")" then
      if up = "COUNT(*)" then dictSet row "count" (.intV grp.length)
      else
        let inner := sDropRight (sDrop col 6) 1
        dictSet row ("count_" ++ inner)
          (.intV (grp.filter (fun r => pyGet r inner ≠ .null)).length)
    else if sStartsWith up "SUM(" && strEndsWith up ")" then
      let sc := sDropRight (sDrop col 4) 1
      dictSet row ("sum_" ++ sc) (sumAgg grp sc)
    else if sStartsWith up "AVG(" && strEndsWith up ")" then
      let ac := sDropRight (sDrop col 4) 1
      dictSet row ("avg_" ++ ac) (avgAgg grp ac)
    else row) acc

def applyGroupBy (rows : List Row) (gb : String) (cols : List String) : List Row :=
  if rows = [] then []
  else (buildGroups rows gb []).map (fun g => applyAggCols g.2 cols [(gb, g.1)])

/-! ### ORDER BY (_apply_order_by) -/

/-- Stable insertion: a later element goes after every earlier element
it does not strictly precede. -/
def insStable (le : Row → Row → Bool) : Row → List Row → List Row
  | x, [] => [x]
  | x, y :: ys => if le y x then y :: insStable le x ys else x :: y :: ys

def stableSort (le : Row → Row → Bool) (l : List Row) : List Row :=
  l.foldl (fun acc x => insStable le x acc) []

def isStrV : Value → Bool
  | .strV _ => true
  | _ => false

/-- _apply_order_by: strip a trailing ASC or DESC, sort stably by the
key x.get(col, ''); a comparison between incomparable kinds raises a
TypeError which the except swallows, returning the rows unsorted, so the
sort happens only when all keys are numeric or all keys are strings. -/
def applyOrderBy (rows : List Row) (ob : String) : List Row :=
  let up := sToUpper ob
  let p :=
    if strEndsWith up " DESC" then (sTrim (sDropRight ob 5), false)
    else if strEndsWith up " ASC" then (sTrim (sDropRight ob 4), true)
    else (ob, true)
  let keyOf : Row → Value := fun r => (lookupKey r p.1).getD (.strV "")
  if rows.length ≤ 1 then rows
  else if rows.all (fun r => isNumLike (keyOf r)) then
    let le : Row → Row → Bool := fun a b =>
      decide ((asNumQ (keyOf a)).getD 0 ≤ (asNumQ (keyOf b)).getD 0)
    stableSort (if p.2 then le else fun a b => le b a) rows
  else if rows.all (fun r => isStrV (keyOf r)) then
    let le : Row → Row → Bool := fun a b =>
      !(strLtPy (pyStr (keyOf b)).toList (pyStr (keyOf a)).toList)
    stableSort (if p.2 then le else fun a b => le b a) rows
  else rows

/-! ### JOIN (_execute_join and _merge_rows) -/

/-- left_part.split('.')[-1] when a dot is present. -/
def lastDotComponent (s : String) : String :=
  if containsSub s "." then ((sSplitOn s ".").getLast?).getD s else s

/-- Case-insensitive fallback over the sample row keys. -/
def ciFindKey (r : Row) (c : String) : Option String :=
  (rowKeys r).find? (fun k => sToLower k = sToLower c)

/-- The unconditional part of _merge_rows: copy the left row, then add
the right columns, prefixing the right table name on a name conflict. -/
def mergePlain (l r : Row) (rightTable : String) : Row :=
  let merged := l.foldl (fun m kv => dictSet m kv.1 kv.2) ([] : Row)
  r.foldl (fun m kv =>
    if hasKey m kv.1 then dictSet m (rightTable ++ "_" ++ kv.1) kv.2
    else dictSet m kv.1 kv.2) merged

/-- _merge_rows: the plain merge, then projection when specific columns
were selected.  Unpacking a selected column with more than one dot
raises, bubbling to the join error handler. -/
def mergeRows (l r : Row) (rightTable : String) (selCols : List String) :
    Except String Row := do
  let merged := mergePlain l r rightTable
  if selCols = [] ∨ selCols = ["*"] then
    pure merged
  else do
    let filtered ← selCols.foldlM (fun (f : Row) col => do
      if containsSub col "." then
        match sSplitOn col "." with
        | [tablePart, colPart] =>
            if hasKey merged colPart then
              pure (dictSet f col (pyGet merged colPart))
            else if hasKey merged (tablePart ++ "_" ++ colPart) then
              pure (dictSet f col (pyGet merged (tablePart ++ "_" ++ colPart)))
            else pure f
        | _ => throw "too many values to unpack"
      else if hasKey merged col then pure (dictSet f col (pyGet merged col))
      else pure f) ([] : Row)
    let filtered := merged.foldl (fun f kv =>
      if containsSub kv.1 "_" then
        match splitOnce kv.1 "_" with
        | [_, colPart] =>
            if selCols.contains colPart ∧ hasKey f colPart = false then
              dictSet f colPart kv.2
            else f
        | _ => f
      else f) filtered
    pure filtered

/-- right_lookup[key].append(right_row). -/
def strDictAppend : List (String × List Row) → String → Row → List (String × List Row)
  | [], k, r => [(k, [r])]
  | (k0, g) :: rest, k, r =>
      if k0 = k then (k0, g ++ [r]) :: rest else (k0, g) :: strDictAppend rest k r

def buildLookupAux : List Row → String → List (String × List Row) → List (String × List Row)
  | [], _, acc => acc
  | r :: rs, c, acc => buildLookupAux rs c (strDictAppend acc (pyGetStr r c) r)

def lookupGroup : List (String × List Row) → String → Option (List Row)
  | [], _ => none
  | (k, g) :: rest, c => if k = c then some g else lookupGroup rest c

/-- ON-clause parsing of _execute_join: one split at the first equals
sign, each side stripped and reduced to its last dot component; empty
strings stand for the Python None or empty column names (both falsy). -/
def parseOnCols (onClause : Option String) : String × String :=
  match onClause with
  | some oc =>
      if containsSub oc "=" then
        match splitOnce oc "=" with
        | [lp, rp] => (lastDotComponent (sTrim lp), lastDotComponent (sTrim rp))
        | _ => ("", "")
      else ("", "")
  | none => ("", "")

/-- _execute_join: read the right table, parse the ON clause with a
single split at the first equals sign, validate the two columns against
the sample rows (case-insensitive fallback, then error), and either
produce the cartesian product (no usable ON columns) or hash-join on the
stringified key str(row.get(col, '')). -/
def execJoin (leftRows : List Row) (q : SelectQuery) (st : DBState) :
    Except String (List Row) :=
  match q.joinClause with
  | none => .error "Invalid JOIN clause"
  | some jc =>
      let rightRows := getAllRows st jc.table
      if rightRows = [] then .ok []
      else
        let pcols := parseOnCols jc.onClause
        let lcE : Except String String :=
          if pcols.1 ≠ "" ∧ leftRows ≠ [] then
            let sample := leftRows.headD []
            if hasKey sample pcols.1 then .ok pcols.1
            else
              match ciFindKey sample pcols.1 with
              | some k => .ok k
              | none => .error ("Column " ++ pcols.1 ++ " not found in left table")
          else .ok pcols.1
        let rcE : Except String String :=
          if pcols.2 ≠ "" ∧ rightRows ≠ [] then
            let sample := rightRows.headD []
            if hasKey sample pcols.2 then .ok pcols.2
            else
              match ciFindKey sample pcols.2 with
              | some k => .ok k
              | none => .error ("Column " ++ pcols.2 ++ " not found in right table " ++ jc.table)
          else .ok pcols.2
        do
          let lc ← lcE
          let rc ← rcE
          if lc = "" ∨ rc = "" then
            let prs ← leftRows.mapM (fun l =>
              rightRows.mapM (fun r => mergeRows l r jc.table q.columns))
            pure prs.flatten
          else
            let lkp := buildLookupAux rightRows rc []
            let grouped ← leftRows.mapM (fun l =>
              match lookupGroup lkp (pyGetStr l lc) with
              | some g => g.mapM (fun r => mergeRows l r jc.table q.columns)
              | none => pure [])
            pure grouped.flatten

/-! ### The six statement pipelines -/

/-- Constraint keywords in the order _execute_create_table emits them. -/
def constraintStringsOf (cs : List ConstraintType) : List String :=
  (if cs.contains .PRIMARY_KEY then ["PRIMARY KEY"] else []) ++
  (if cs.contains .UNIQUE then ["UNIQUE"] else []) ++
  (if cs.contains .NOT_NULL then ["NOT NULL"] else [])

/-- _execute_create_table: persist the schema dict (with the type key),
then create an index on the first PRIMARY_KEY column if any. -/
def execCreateTable (q : CreateTableQuery) (st : DBState) : ExecResult × DBState :=
  let cols : List ColDict := q.columns.map (fun c =>
    { nameKey := some c.name, typeKey := some c.dataType.value,
      dataTypeKey := none, constraints := constraintStringsOf c.constraints,
      maxLength := c.maxLength })
  let st1 := saveTableSchemaState st q.tableName (.dict q.tableName cols)
  let st2 :=
    match q.columns.find? (fun c => c.constraints.contains .PRIMARY_KEY) with
    | some c => createIndexState st1 q.tableName c.name
    | none => st1
  ({ message := some ("Table " ++ q.tableName ++ " created successfully"),
     tableField := some q.tableName, columnsCount := some cols.length }, st2)

/-- Value coercion of _execute_insert.  The column type is read with
get('type', 'TEXT'); the stored schema only carries data_type, so on the
load path the default TEXT always applies. -/
def coerceValue (c : ColDict) (v : Value) : Value :=
  let ct := sToUpper (c.typeKey.getD "TEXT")
  if v = .null then .null
  else if ct = "INT" then
    match pyIntCast v with
    | some n => .intV n
    | none => v
  else if ct = "DECIMAL" then
    match pyFloatCast v with
    | some q => .floatV q
    | none => v
  else if ct = "BOOLEAN" then
    match v with
    | .boolV b => .boolV b
    | .strV s => .boolV (["true", "1", "yes", "t"].contains (sToLower s))
    | _ => .boolV (pyTruthy v)
  else .strV (pyStr v)

def buildInsertRow (cols : List ColDict) (values : List Value) : Row :=
  (cols.zip values).foldl
    (fun r cv => dictSet r (cv.1.nameKey.getD "") (coerceValue cv.1 cv.2)) []

/-- The constraint loop of _execute_insert: first violation wins; the
UNIQUE check scans the whole store with Python equality (a PRIMARY KEY
column carries only the PRIMARY KEY keyword, so it is never checked). -/
def constraintViolation (st : DBState) (t : String) (cols : List ColDict) (row : Row) :
    Option String :=
  match cols with
  | [] => none
  | c :: rest =>
      let cn := c.nameKey.getD ""
      if c.constraints.contains "NOT NULL" ∧ hasKey row cn ∧ pyGet row cn = .null then
        some ("Column " ++ cn ++ " cannot be NULL")
      else if c.constraints.contains "UNIQUE" ∧ hasKey row cn ∧
          (getAllRows st t).any (fun er => pyEqValue (pyGet er cn) (pyGet row cn)) then
        some ("Duplicate value for unique column " ++ cn)
      else constraintViolation st t rest row

/-- _execute_insert. -/
def execInsert (q : InsertQuery) (st : DBState) : ExecResult × DBState :=
  match loadTableSchema st q.tableName with
  | none => (errResult ("Table " ++ q.tableName ++ " not found or has no schema"), st)
  | some (.rowsList _) =>
      (errResult ("Table " ++ q.tableName ++ " not found or has no schema"), st)
  | some (.dict _ cols) =>
      if q.values.length ≠ cols.length then
        (errResult ("Expected " ++ toString cols.length ++ " values, got " ++
          toString q.values.length), st)
      else
        let row := buildInsertRow cols q.values
        match constraintViolation st q.tableName cols row with
        | some msg => (errResult msg, st)
        | none =>
            match insertRowE st q.tableName row with
            | .ok st2 => ({ message := some "1 row inserted", rowField := some row }, st2)
            | .error e => (errResult ("Error inserting row: " ++ e), st)

def headKeys : List Row → List String
  | [] => []
  | r :: _ => rowKeys r

/-- Column projection of _execute_select: known columns copy over, a
COUNT token gets the current row count, anything else is dropped; one
(possibly empty) dict is kept per row. -/
def projectCols (rows : List Row) (cols : List String) : List Row :=
  rows.map (fun row =>
    cols.foldl (fun f col =>
      if hasKey row col then dictSet f col (pyGet row col)
      else if sStartsWith (sToUpper col) "COUNT" then dictSet f col (.intV rows.length)
      else f) [])

/-- The stages of _execute_select after the join: where, group by,
projection, order by, limit (a limit of zero is falsy and ignored). -/
def selectStages (q : SelectQuery) (rows1 : List Row) : List Row :=
  let rows2 :=
    match q.whereClause with
    | some w => if w ≠ "" then applyWhere rows1 w else rows1
    | none => rows1
  let rows3 :=
    match q.groupBy with
    | some g => if g ≠ "" then applyGroupBy rows2 g q.columns else rows2
    | none => rows2
  let rows4 := if q.columns ≠ ["*"] then projectCols rows3 q.columns else rows3
  let rows5 :=
    match q.orderBy with
    | some ob => if ob ≠ "" then applyOrderBy rows4 ob else rows4
    | none => rows4
  match q.limit with
  | some n => if n ≠ 0 then rows5.take n else rows5
  | none => rows5

/-- The result record of a successful SELECT: the column list comes
from the keys of the first result row. -/
def selectResult (rows6 : List Row) : ExecResult :=
  { columns := some (headKeys rows6), rows := some rows6,
    count := some rows6.length, rowCount := some rows6.length,
    message := some "Query executed successfully" }

/-- The scanned rows after the optional join of _execute_select. -/
def joinedRows (q : SelectQuery) (st : DBState) : Except String (List Row) :=
  let rows0 := getAllRows st q.tableName
  match q.joinClause with
  | some jc => if jc.table ≠ "" then execJoin rows0 q st else .ok rows0
  | none => .ok rows0

/-- _execute_select: scan, join, then the filtering stages. -/
def execSelect (q : SelectQuery) (st : DBState) : ExecResult × DBState :=
  if tableExists st q.tableName = false then
    (errResult ("Table " ++ q.tableName ++ " not found"), st)
  else
    match joinedRows q st with
    | .error e => (errResult e, st)
    | .ok rows1 => (selectResult (selectStages q rows1), st)

/-- The WHERE test of _execute_update: only an equals sign is honoured,
via a single split and a stringified comparison with the quote-stripped
literal; a clause without an equals sign leaves should_update true. -/
def updMatchRow (w : Option String) (row : Row) : Bool :=
  match w with
  | none => true
  | some wc =>
      if containsSub wc "=" then
        match splitOnce wc "=" with
        | [c, v] => pyGetStr row (sTrim c) == trimCharsBoth (sTrim v) ['\'', '"']
        | _ => true
      else true

def applySet (setC : List (String × Value)) (row : Row) : Row :=
  setC.foldl (fun r cv => dictSet r cv.1 cv.2) row

/-- The update loop over the row list: matching rows get the SET
assignments applied in place. -/
def updateLoop (rows : List Row) (w : Option String) (setC : List (String × Value)) :
    List Row × Nat :=
  match rows with
  | [] => ([], 0)
  | r :: rs =>
      let p := updateLoop rs w setC
      if updMatchRow w r then (applySet setC r :: p.1, p.2 + 1)
      else (r :: p.1, p.2)

/-- _execute_update: when any row matched, the reflection fallback over
the storage object finds exactly one public method containing save,
save_table_schema, and calls it with the updated row list, which lands
in schema.json; data.pkl is never rewritten. -/
def execUpdate (q : UpdateQuery) (st : DBState) : ExecResult × DBState :=
  let rows := getAllRows st q.tableName
  if rows = [] then
    ({ success := some true, message := some "0 rows updated", count := some 0,
       columns := some [], rows := some [] }, st)
  else
    let p := updateLoop rows q.whereClause q.setClause
    let st2 := if p.2 > 0 then saveTableSchemaState st q.tableName (.rowsList p.1) else st
    ({ success := some true, message := some (toString p.2 ++ " row(s) updated"),
       count := some p.2, columns := some [], rows := some [],
       rowCount := some p.2 }, st2)

/-- The row partition of _execute_delete: rows matching the single
equality of the WHERE clause are counted as deleted, the rest kept. -/
def deleteLoop (rows : List Row) (w : Option String) : List Row × Nat :=
  match rows with
  | [] => ([], 0)
  | r :: rs =>
      let p := deleteLoop rs w
      let matched :=
        match w with
        | some wc =>
            if containsSub wc "=" then
              match splitOnce wc "=" with
              | [c, v] => pyGetStr r (sTrim c) == trimCharsBoth (sTrim v) ['\'', '"']
              | _ => false
            else false
        | none => false
      if matched then (p.1, p.2 + 1) else (r :: p.1, p.2)

/-- _execute_delete: the survivors are computed but never written back
(the source notes that a production version would delete from storage),
so the state is returned unchanged. -/
def execDelete (q : DeleteQuery) (st : DBState) : ExecResult × DBState :=
  let rows := getAllRows st q.tableName
  if rows = [] then ({ message := some "0 rows deleted", count := some 0 }, st)
  else
    let p := deleteLoop rows q.whereClause
    ({ message := some (toString p.2 ++ " row(s) deleted"), count := some p.2 }, st)

/-- _execute_drop_table. -/
def execDropTable (q : DropTableQuery) (st : DBState) : ExecResult × DBState :=
  let p := deleteTableState st q.tableName
  if p.1 then ({ message := some ("Table " ++ q.tableName ++ " dropped") }, p.2)
  else (errResult ("Table " ++ q.tableName ++ " not found"), st)

/-- The isinstance dispatch of QueryExecutor.execute.  Each stage body
sits in its own try block returning an error dict on any internal
failure, which is why the dispatch is total. -/
def execDispatch (q : PQuery) (st : DBState) : ExecResult × DBState :=
  match q with
  | .createT c => execCreateTable c st
  | .insertQ i => execInsert i st
  | .selectQ s => execSelect s st
  | .updateQ u => execUpdate u st
  | .deleteQ d => execDelete d st
  | .dropT d => execDropTable d st

/-- QueryExecutor.execute: run the stage, attach the execution time, and
set the success flag from the presence of an error key.  The re-raise in
its except clause is unreachable because every stage catches its own
failures. -/
def executeQE (q : PQuery) (st : DBState) (elapsed : Nat) : ExecResult × DBState :=
  let p := execDispatch q st
  ({ p.1 with execTime := some elapsed, success := some p.1.error.isNone }, p.2)

/-! ## CREATE TABLE column parsing (SQLParser._parse_create_table) -/

/-- The declared type token of one column definition: the second
whitespace word (TEXT when missing), with a parenthesised length
stripped, uppercased. -/
def declaredTypeToken (cd : String) : String :=
  let parts := wsSplit cd
  let dts := (parts[1]?).getD "TEXT"
  if containsSub dts "(" && containsSub dts ")" then
    (sToUpper ((sSplitOn dts "(").headD ""))
  else sToUpper dts

/-- The seven supported data type names. -/
def supportedTypeNames : List String :=
  ["INT", "VARCHAR", "TEXT", "BOOLEAN", "DECIMAL", "TIMESTAMP", "DATE"]

/-- Parse one column definition (an already stripped, nonempty piece of
the column list): name, type token with optional length, constraint
keywords matched as substrings of the joined remainder; an unknown type
token falls back to TEXT via the ValueError handler. -/
def parseOneColumn (cd : String) : ColumnDefinition :=
  let parts := wsSplit cd
  let colName := parts.headD ""
  let dts := (parts[1]?).getD "TEXT"
  let pml :=
    if containsSub dts "(" && containsSub dts ")" then
      let typeParts := sSplitOn dts "("
      let base := sToUpper (typeParts.headD "")
      let lengthStr := rstripChar ((typeParts[1]?).getD "") ')'
      (base, pyParseInt lengthStr)
    else (sToUpper dts, none)
  let joined := sToUpper (sIntercalate " " (parts.drop 2))
  let cs :=
    (if containsSub joined "PRIMARY" && containsSub joined "KEY" then
      [ConstraintType.PRIMARY_KEY] else []) ++
    (if containsSub joined "UNIQUE" then [ConstraintType.UNIQUE] else []) ++
    (if containsSub joined "NOT" && containsSub joined "NULL" then
      [ConstraintType.NOT_NULL] else [])
  { name := colName
    dataType := (dataTypeFromString pml.1).getD .TEXT
    constraints := cs
    maxLength := pml.2 }

/-- The column loop of _parse_create_table: strip each piece, skip the
empty ones, parse the rest; there is no failure path past the initial
regular expression match. -/
def parseCreateColumns (colDefs : List String) : List ColumnDefinition :=
  colDefs.filterMap (fun cd =>
    let cd := sTrim cd
    if cd = "" then none else some (parseOneColumn cd))

/-! ## File operation traces of the storage layer (for the durability
contract).  Each mutating Storage method is summarised by the sequence
of file system operations it performs, with paths as os.path.join
produces them from the default data directory. -/

inductive FsOp where
  | mkdir (p : String)
  | writeFile (p : String)
  | rename (src tgt : String)
  | removeTree (p : String)
deriving DecidableEq, Repr

def tableDirPath (db t : String) : String := "./data/" ++ db ++ "/" ++ t
def dataFilePath (db t : String) : String := tableDirPath db t ++ "/data.pkl"
def schemaFilePath (db t : String) : String := tableDirPath db t ++ "/schema.json"
def metaFilePath (db : String) : String := "./data/" ++ db ++ "/meta.json"
def indexFilePath (db t c : String) : String :=
  tableDirPath db t ++ "/index_" ++ c ++ ".pkl"

/-- Storage.insert_row writes the appended pickle straight into
data.pkl (the open for writing fails first when the directory is
missing, in which case nothing is written). -/
def insertRowTrace (st : DBState) (db t : String) : List FsOp :=
  if (getTD st.tables t).isSome then [.writeFile (dataFilePath db t)] else []

/-- Storage.update_rows writes the patched pickle straight into
data.pkl when the file exists. -/
def updateRowsTrace (st : DBState) (db t : String) : List FsOp :=
  if (getTD st.tables t).isSome then [.writeFile (dataFilePath db t)] else []

/-- Storage.save_table_schema: makedirs when the table directory is
missing, write schema.json, and rewrite meta.json when the registry
entry is new. -/
def saveTableSchemaTrace (st : DBState) (db t : String) : List FsOp :=
  (if (getTD st.tables t).isSome then [] else [FsOp.mkdir (tableDirPath db t)]) ++
  [FsOp.writeFile (schemaFilePath db t)] ++
  (if st.meta.contains t then [] else [FsOp.writeFile (metaFilePath db)])

/-- Storage._save_metadata writes meta.json in place. -/
def saveMetadataTrace (db : String) : List FsOp := [.writeFile (metaFilePath db)]

/-- The write-to-temporary-then-rename discipline the specification
claims: every file written in the trace is a scratch path later renamed
onto a target. -/
def usesTempAtomicReplace (tr : List FsOp) : Bool :=
  tr.all (fun op =>
    match op with
    | .writeFile p =>
        tr.any (fun o =>
          match o with
          | .rename src _ => src = p
          | _ => false)
    | _ => true)

/-- Direct in-place writing: no renames at all, and every write targets
one of the final artifact files of the given table. -/
def writesDirectly (tr : List FsOp) (targets : List String) : Bool :=
  tr.all (fun op =>
    match op with
    | .writeFile p => targets.contains p
    | .rename _ _ => false
    | _ => true)

/-! ## Specification-side definitions used for comparison -/

/-- The join result the specification describes for an ON clause l.a =
r.b: the merged rows of exactly those pairs whose join-column values
are equal as values. -/
def claimJoinRows (L R : List Row) (a b tbl : String) : List Row :=
  L.flatMap (fun l =>
    (R.filter (fun r => pyGet r b = pyGet l a)).map (fun r => mergePlain l r tbl))

/-! ## Concrete scenario states -/

def usersCreate : CreateTableQuery :=
  { tableName := "users",
    columns :=
      [{ name := "id", dataType := .INT, constraints := [.PRIMARY_KEY] },
       { name := "name", dataType := .VARCHAR, constraints := [], maxLength := some 50 }] }

def usersSt1 : DBState := (executeQE (.createT usersCreate) emptyState 0).2

def insJohn : InsertQuery := { tableName := "users", values := [.intV 1, .strV "John"] }
def insJane : InsertQuery := { tableName := "users", values := [.intV 1, .strV "Jane"] }

def usersSt2 : DBState := (executeQE (.insertQ insJohn) usersSt1 0).2
def usersSt3 : DBState := (executeQE (.insertQ insJane) usersSt2 0).2

def c1State : DBState :=
  { tables := [("t", { dataFile := some [[("id", .intV 1)], [("id", .intV 2)]] })] }

def c1Delete : PQuery := .deleteQ { tableName := "t", whereClause := some "id=1" }

def c4State : DBState := { tables := [("t", {})] }

def selectStar (t : String) : SelectQuery := { columns := ["*"], tableName := t }

/-- Run a sequence of INSERT statements through the executor. -/
def insertsFold (t : String) : DBState → List (List Value) → DBState
  | st, [] => st
  | st, vs :: rest =>
      insertsFold t (executeQE (.insertQ { tableName := t, values := vs }) st 0).2 rest

/-- Every INSERT of the sequence reported success. -/
def insertsAllOk (t : String) : DBState → List (List Value) → Bool
  | _, [] => true
  | st, vs :: rest =>
      let p := executeQE (.insertQ { tableName := t, values := vs }) st 0
      p.1.error.isNone && insertsAllOk t p.2 rest

/-- The column dicts as they sit in schema.json after CREATE TABLE
(type moved under the data_type key by serialization). -/
def storedColsOf (q : CreateTableQuery) : List ColDict :=
  q.columns.map (fun c =>
    { nameKey := some c.name, typeKey := none,
      dataTypeKey := some c.dataType.value,
      constraints := constraintStringsOf c.constraints,
      maxLength := c.maxLength })

def c5Update : UpdateQuery :=
  { tableName := "t", setClause := [("id", .intV 9)], whereClause := some "id=1" }

def c10Query : SelectQuery :=
  { columns := ["*"], tableName := "t", whereClause := some "id=5" }

def c7Rows : List (List Value) := [[.intV 1, .strV "John"], [.intV 2, .strV "Jane"]]

/-- The storage invariant behind index lookups: every position recorded
in an index file of a table lies inside its current row store. -/
def IdxBound (td : TableDir) : Prop :=
  ∀ c idx, getIdx td.indexFiles c = some idx →
    ∀ e ∈ idx, ∀ p ∈ e.2, p < (td.dataFile.getD []).length

def Inv (st : DBState) : Prop :=
  ∀ t td, getTD st.tables t = some td → IdxBound td

/-- One step of the engine: one executor statement, or an explicit
index creation through the facade. -/
inductive Step : DBState → DBState → Prop where
  | exec (q : PQuery) (el : Nat) (st : DBState) : Step st (executeQE q st el).2
  | mkIndex (tab col : String) (st : DBState) : Step st (createIndexState st tab col)

/-- Storage states reachable from the empty database directory. -/
inductive Reachable : DBState → Prop where
  | base : Reachable emptyState
  | step {s s' : DBState} : Reachable s → Step s s' → Reachable s'

/-- A reachable state with a populated index: create the users table,
insert one row, then build the id index. -/
def c3WitState : DBState := createIndexState usersSt2 "users" "id"

def c6St : DBState :=
  { tables := [("r", { dataFile := some [[("b", .strV "1")]] })] }

def c6Jc : JoinClause := { jtype := "INNER", table := "r", onClause := some "a = b" }

def c6Q : SelectQuery :=
  { columns := ["*"], tableName := "l", joinClause := some c6Jc }

def c6JcNoOn : JoinClause := { jtype := "INNER", table := "r", onClause := none }

def c6QNoOn : SelectQuery :=
  { columns := ["*"], tableName := "l", joinClause := some c6JcNoOn }

/-! ## Claim theorems -/

/-- Directory lookup after an update: the updated table reads back the
new record, others are untouched. -/
theorem getTD_setTD (l : List (String × TableDir)) (t : String) (td : TableDir)
    (u : String) :
    getTD (setTD l t td) u = if u = t then some td else getTD l u := by
  by_cases hut : u = t
  · subst hut
    rw [if_pos rfl]
    induction l with
    | nil => simp [setTD, getTD]
    | cons hd tl ih =>
        obtain ⟨n, d⟩ := hd
        by_cases h1 : n = u
        · subst h1
          simp [setTD, getTD]
        · simp [setTD, getTD, h1, ih]
  · rw [if_neg hut]
    induction l with
    | nil =>
        simp only [setTD, getTD]
        rw [if_neg (fun h => hut h.symm)]
    | cons hd tl ih =>
        obtain ⟨n, d⟩ := hd
        by_cases h1 : n = t
        · subst h1
          have hnu : ¬ n = u := fun h => hut h.symm
          simp [setTD, getTD, hnu]
        · simp only [setTD, getTD, if_neg h1]
          by_cases h2 : n = u
          · simp [getTD, h2]
          · simp [getTD, h2, ih]

/-- Appending a row via the storage layer: the target store grows at
the end, the schema file and everything else are untouched. -/
theorem insertRowE_ok_state {st : DBState} {t : String} {r : Row} {st' : DBState}
    (h : insertRowE st t r = .ok st') :
    getAllRows st' t = getAllRows st t ++ [r] ∧
    loadTableSchema st' t = loadTableSchema st t ∧
    tableExists st' t = tableExists st t := by
  unfold insertRowE at h
  cases htd : getTD st.tables t with
  | none => rw [htd] at h; exact absurd h (by simp)
  | some td =>
      rw [htd] at h
      simp only [Except.ok.injEq] at h
      subst h
      refine ⟨?_, ?_, ?_⟩ <;>
        simp [getAllRows, loadTableSchema, tableExists, getTD_setTD, htd]

/-- The round trip of a successful INSERT sequence: each insert appends
exactly the coerced row built from the loaded schema, which itself
never changes. -/
theorem inserts_roundtrip (t nm : String) (cols : List ColDict) :
    ∀ (vss : List (List Value)) (st : DBState),
      loadTableSchema st t = some (.dict nm cols) →
      insertsAllOk t st vss = true →
      getAllRows (insertsFold t st vss) t =
        getAllRows st t ++ vss.map (buildInsertRow cols) ∧
      loadTableSchema (insertsFold t st vss) t = some (.dict nm cols) ∧
      tableExists (insertsFold t st vss) t = tableExists st t := by
  intro vss
  induction vss with
  | nil =>
      intro st hs _
      refine ⟨?_, hs, rfl⟩
      show getAllRows st t = getAllRows st t ++ []
      simp
  | cons vs rest ih =>
      intro st hs hok
      simp only [insertsAllOk, Bool.and_eq_true, Option.isNone_iff_eq_none] at hok
      obtain ⟨hok1, hok2⟩ := hok
      have herr : (execInsert { tableName := t, values := vs } st).1.error = none := hok1
      have hst2 : insertsFold t st (vs :: rest) =
          insertsFold t (execInsert { tableName := t, values := vs } st).2 rest := rfl
      unfold execInsert at herr hst2
      rw [hs] at herr hst2
      dsimp only at herr hst2
      by_cases hlen : vs.length ≠ cols.length
      · rw [if_pos hlen] at herr
        exact absurd herr (by simp [errResult])
      · rw [if_neg hlen] at herr hst2
        cases hcv : constraintViolation st t cols (buildInsertRow cols vs) with
        | some msg =>
            rw [hcv] at herr
            exact absurd herr (by simp [errResult])
        | none =>
            rw [hcv] at herr hst2
            cases hins : insertRowE st t (buildInsertRow cols vs) with
            | error e =>
                rw [hins] at herr
                exact absurd herr (by simp [errResult])
            | ok st2 =>
                rw [hins] at hst2
                obtain ⟨hrows, hsch, hex⟩ := insertRowE_ok_state hins
                have hs2 : loadTableSchema st2 t = some (.dict nm cols) := by
                  rw [hsch, hs]
                have hok2' : insertsAllOk t st2 rest = true := by
                  have heq : (executeQE (.insertQ { tableName := t, values := vs }) st 0).2
                      = st2 := by
                    show (execInsert { tableName := t, values := vs } st).2 = st2
                    unfold execInsert
                    rw [hs]
                    dsimp only
                    rw [if_neg hlen, hcv, hins]
                  rw [heq] at hok2
                  exact hok2
                obtain ⟨ih1, ih2, ih3⟩ := ih st2 hs2 hok2'
                rw [hst2]
                refine ⟨?_, ih2, ?_⟩
                · rw [ih1, hrows]
                  simp
                · rw [ih3, hex]

/-- A SELECT * with no clauses returns the full row store whenever the
table directory exists. -/
theorem execSelect_star {st : DBState} {t : String}
    (h : tableExists st t = true) :
    (execSelect (selectStar t) st).1 = selectResult (getAllRows st t) := by
  unfold execSelect
  dsimp only [selectStar]
  rw [h]
  rfl

theorem getTD_saveTableSchemaState (st : DBState) (t : String) (p : SchemaPayload)
    (u : String) :
    getTD (saveTableSchemaState st t p).tables u =
      if u = t then
        some { (getTD st.tables t).getD {} with schemaFile := some (serializePayload p) }
      else getTD st.tables u := by
  unfold saveTableSchemaState
  exact getTD_setTD _ _ _ _

theorem getTD_createIndexState (st : DBState) (t c : String) (u : String) :
    getTD (createIndexState st t c).tables u =
      if u = t then
        some { (getTD st.tables t).getD {} with
          indexFiles := setIdx ((getTD st.tables t).getD {}).indexFiles c
            (buildIndex (getAllRows st t) c) }
      else getTD st.tables u := by
  unfold createIndexState
  exact getTD_setTD _ _ _ _

/-- After CREATE TABLE on the empty database the schema file holds the
serialized column dicts, the row store is empty, and the directory
exists (whether or not a primary key index was created). -/
theorem createTable_fresh (ctq : CreateTableQuery) :
    loadTableSchema ((executeQE (.createT ctq) emptyState 0).2) ctq.tableName
        = some (.dict ctq.tableName (storedColsOf ctq)) ∧
    getAllRows ((executeQE (.createT ctq) emptyState 0).2) ctq.tableName = [] ∧
    tableExists ((executeQE (.createT ctq) emptyState 0).2) ctq.tableName = true := by
  have hser : serializePayload (.dict ctq.tableName (ctq.columns.map (fun c =>
      { nameKey := some c.name, typeKey := some c.dataType.value,
        dataTypeKey := none, constraints := constraintStringsOf c.constraints,
        maxLength := c.maxLength }))) = .dict ctq.tableName (storedColsOf ctq) := by
    simp only [serializePayload, storedColsOf, List.map_map]
    rfl
  show loadTableSchema (execCreateTable ctq emptyState).2 ctq.tableName = _ ∧
    getAllRows (execCreateTable ctq emptyState).2 ctq.tableName = _ ∧
    tableExists (execCreateTable ctq emptyState).2 ctq.tableName = _
  unfold execCreateTable
  dsimp only
  cases hf : ctq.columns.find? (fun c => c.constraints.contains .PRIMARY_KEY) with
  | none =>
      refine ⟨?_, ?_, ?_⟩ <;>
        simp [loadTableSchema, getAllRows, tableExists,
          getTD_saveTableSchemaState, emptyState, getTD, hser]
  | some c =>
      refine ⟨?_, ?_, ?_⟩ <;>
        simp [loadTableSchema, getAllRows, tableExists, getTD_createIndexState,
          getTD_saveTableSchemaState, emptyState, getTD, hser]

/-- C7 counterexample: the insert of the int 1 with the str John
succeeds, yet SELECT * returns the row with the stringified id instead
of the inserted int value, so the round trip does not return exactly
the inserted rows.  (The schema serializer stores the declared type
under the data_type key while the insert coercion reads the type key
with default TEXT, so every value is stringified on the way in.) -/
theorem c7_counterexample_roundtrip_stringifies :
    (executeQE (.insertQ insJohn) usersSt1 0).1.error = none ∧
    (execSelect (selectStar "users") usersSt2).1.rows ≠
      some [[("id", Value.intV 1), ("name", Value.strV "John")]] ∧
    (execSelect (selectStar "users") usersSt2).1.rows =
      some [[("id", Value.strV "1"), ("name", Value.strV "John")]] := by
  decide

/-- Every column dict stored by CREATE TABLE carries its type only
under the data_type key, so the insert coercion reads the TEXT default
and stringifies every non-null value. -/
theorem coerce_stored_stringifies (ctq : CreateTableQuery) :
    ∀ c ∈ storedColsOf ctq, ∀ v : Value,
      coerceValue c v = if v = Value.null then Value.null else Value.strV (pyStr v) := by
  intro c hc v
  obtain ⟨c0, _, hce⟩ := List.mem_map.mp hc
  subst hce
  by_cases hv : v = Value.null
  · subst hv
    rfl
  · rw [if_neg hv]
    unfold coerceValue
    rw [if_neg hv]
    rfl

/-- C7 amended: inserting a sequence of rows whose inserts all succeed
into a freshly created table and then running SELECT * returns exactly
the rows as the insert pipeline stored them, in insertion order (each
insert appends at the end of the row store and the scan preserves store
order) — but these stored rows are not the typed inserted values: the
loaded schema carries the declared type only under the data_type key
while the coercion reads the type key with default TEXT, so every
non-null inserted value comes back as its str() image (the last
conjunct). -/
theorem c7_roundtrip_inserts_in_order :
    ∀ (ctq : CreateTableQuery) (vss : List (List Value)),
      insertsAllOk ctq.tableName ((executeQE (.createT ctq) emptyState 0).2) vss = true →
      (execSelect (selectStar ctq.tableName)
          (insertsFold ctq.tableName ((executeQE (.createT ctq) emptyState 0).2) vss)).1.rows =
        some (vss.map (buildInsertRow (storedColsOf ctq))) ∧
      (execSelect (selectStar ctq.tableName)
          (insertsFold ctq.tableName ((executeQE (.createT ctq) emptyState 0).2) vss)).1.count =
        some vss.length ∧
      (∀ c ∈ storedColsOf ctq, ∀ v : Value,
        coerceValue c v = if v = Value.null then Value.null else Value.strV (pyStr v)) := by
  intro ctq vss hok
  obtain ⟨hsch, hrows, hex⟩ := createTable_fresh ctq
  obtain ⟨h1, _h2, h3⟩ :=
    inserts_roundtrip ctq.tableName ctq.tableName (storedColsOf ctq) vss _ hsch hok
  have hex2 : tableExists
      (insertsFold ctq.tableName ((executeQE (.createT ctq) emptyState 0).2) vss)
      ctq.tableName = true := by
    rw [h3, hex]
  have hfinal : getAllRows
      (insertsFold ctq.tableName ((executeQE (.createT ctq) emptyState 0).2) vss)
      ctq.tableName = vss.map (buildInsertRow (storedColsOf ctq)) := by
    rw [h1, hrows]
    simp
  rw [execSelect_star hex2, hfinal]
  exact ⟨rfl, by simp [selectResult], coerce_stored_stringifies ctq⟩

/-- C7 witness: two inserts into the freshly created users table come
back in order from SELECT *, as their stringified images. -/
theorem c7_witness :
    insertsAllOk usersCreate.tableName
      ((executeQE (.createT usersCreate) emptyState 0).2) c7Rows = true ∧
    (execSelect (selectStar usersCreate.tableName)
        (insertsFold usersCreate.tableName
          ((executeQE (.createT usersCreate) emptyState 0).2) c7Rows)).1.rows =
      some (c7Rows.map (buildInsertRow (storedColsOf usersCreate))) ∧
    (execSelect (selectStar usersCreate.tableName)
        (insertsFold usersCreate.tableName
          ((executeQE (.createT usersCreate) emptyState 0).2) c7Rows)).1.count =
      some c7Rows.length :=
  ⟨by decide,
   (c7_roundtrip_inserts_in_order usersCreate c7Rows (by decide)).1,
   (c7_roundtrip_inserts_in_order usersCreate c7Rows (by decide)).2.1⟩

/-! ## Index validity over all reachable states (claim C3) -/

/-- The row store read uniformly through the directory default. -/
theorem getAllRows_eq (st : DBState) (t : String) :
    getAllRows st t = ((getTD st.tables t).getD {}).dataFile.getD [] := by
  unfold getAllRows
  cases getTD st.tables t <;> rfl

theorem getIdx_setIdx (l : List (String × IndexFile)) (c : String) (f : IndexFile)
    (u : String) :
    getIdx (setIdx l c f) u = if u = c then some f else getIdx l u := by
  by_cases huc : u = c
  · subst huc
    rw [if_pos rfl]
    induction l with
    | nil => simp [setIdx, getIdx]
    | cons hd tl ih =>
        obtain ⟨n, d⟩ := hd
        by_cases h1 : n = u
        · subst h1
          simp [setIdx, getIdx]
        · simp [setIdx, getIdx, h1, ih]
  · rw [if_neg huc]
    induction l with
    | nil =>
        simp only [setIdx, getIdx]
        rw [if_neg (fun h => huc h.symm)]
    | cons hd tl ih =>
        obtain ⟨n, d⟩ := hd
        by_cases h1 : n = c
        · subst h1
          have hnu : ¬ n = u := fun h => huc h.symm
          simp [setIdx, getIdx, hnu]
        · simp only [setIdx, getIdx, if_neg h1]
          by_cases h2 : n = u
          · simp [getIdx, h2]
          · simp [getIdx, h2, ih]

theorem getTD_removeTD (l : List (String × TableDir)) (t u : String) :
    getTD (removeTD l t) u = if u = t then none else getTD l u := by
  by_cases hut : u = t
  · subst hut
    rw [if_pos rfl]
    induction l with
    | nil => rfl
    | cons hd tl ih =>
        obtain ⟨n, d⟩ := hd
        by_cases h1 : n = u
        · subst h1
          simpa [removeTD, List.filter_cons, getTD] using ih
        · simpa [removeTD, List.filter_cons, getTD, h1] using ih
  · rw [if_neg hut]
    induction l with
    | nil => rfl
    | cons hd tl ih =>
        obtain ⟨n, d⟩ := hd
        by_cases h1 : n = t
        · subst h1
          have hnu : ¬ n = u := fun h => hut h.symm
          simpa [removeTD, List.filter_cons, getTD, hnu] using ih
        · by_cases h2 : n = u
          · simp [removeTD, List.filter_cons, getTD, h1, h2, hut]
          · simpa [removeTD, List.filter_cons, getTD, h1, h2] using ih

theorem dictAppendPos_bound (n : Nat) (k : Value) (p0 : Nat) (hp : p0 < n) :
    ∀ (idx : IndexFile), (∀ e ∈ idx, ∀ p ∈ e.2, p < n) →
      ∀ e ∈ dictAppendPos idx k p0, ∀ p ∈ e.2, p < n := by
  intro idx
  induction idx with
  | nil =>
      intro _ e he p hpe
      simp only [dictAppendPos, List.mem_singleton] at he
      subst he
      simp only [List.mem_singleton] at hpe
      subst hpe
      exact hp
  | cons e0 rest ih =>
      obtain ⟨k0, ps0⟩ := e0
      intro h e he p hpe
      simp only [dictAppendPos] at he
      by_cases hk : pyEqValue k0 k = true
      · rw [if_pos hk] at he
        rcases List.mem_cons.mp he with he1 | he2
        · subst he1
          rcases List.mem_append.mp hpe with h1 | h2
          · exact h (k0, ps0) (List.mem_cons_self _ _) p h1
          · simp only [List.mem_singleton] at h2
            subst h2
            exact hp
        · exact h e (List.mem_cons_of_mem _ he2) p hpe
      · rw [if_neg hk] at he
        rcases List.mem_cons.mp he with he1 | he2
        · subst he1
          exact h (k0, ps0) (List.mem_cons_self _ _) p hpe
        · exact ih (fun e' he' => h e' (List.mem_cons_of_mem _ he')) e he2 p hpe

theorem buildIndexAux_bound (c : String) (n : Nat) :
    ∀ (rows : List Row) (i : Nat) (acc : IndexFile),
      (∀ e ∈ acc, ∀ p ∈ e.2, p < n) → i + rows.length ≤ n →
      ∀ e ∈ buildIndexAux rows c i acc, ∀ p ∈ e.2, p < n := by
  intro rows
  induction rows with
  | nil =>
      intro i acc hacc _
      simpa [buildIndexAux] using hacc
  | cons r rs ih =>
      intro i acc hacc hle
      simp only [List.length_cons] at hle
      show ∀ e ∈ buildIndexAux rs c (i + 1)
        (if pyGet r c = .null then acc else dictAppendPos acc (pyGet r c) i), _
      apply ih (i + 1)
      · by_cases hnull : pyGet r c = Value.null
        · rw [if_pos hnull]
          exact hacc
        · rw [if_neg hnull]
          exact dictAppendPos_bound n _ i (by omega) acc hacc
      · omega

theorem buildIndex_bound (rows : List Row) (c : String) :
    ∀ e ∈ buildIndex rows c, ∀ p ∈ e.2, p < rows.length := by
  apply buildIndexAux_bound c rows.length rows 0 []
  · intro e he
    exact absurd he (by simp)
  · omega

theorem inv_saveTableSchemaState {st : DBState} (t : String) (p : SchemaPayload)
    (h : Inv st) : Inv (saveTableSchemaState st t p) := by
  intro u td hu
  rw [getTD_saveTableSchemaState] at hu
  by_cases hut : u = t
  · rw [if_pos hut] at hu
    cases hbase : getTD st.tables t with
    | none =>
        rw [hbase] at hu
        have := Option.some.inj hu
        subst this
        intro c idx hidx
        exact absurd hidx (by simp [getIdx])
    | some td0 =>
        rw [hbase] at hu
        have := Option.some.inj hu
        subst this
        intro c idx hidx
        exact h t td0 hbase c idx hidx
  · rw [if_neg hut] at hu
    exact h u td hu

theorem inv_insertRowE {st : DBState} {t : String} {r : Row} {st' : DBState}
    (h : Inv st) (hins : insertRowE st t r = .ok st') : Inv st' := by
  unfold insertRowE at hins
  cases htd : getTD st.tables t with
  | none =>
      rw [htd] at hins
      exact absurd hins (by simp)
  | some td0 =>
      rw [htd] at hins
      simp only [Except.ok.injEq] at hins
      subst hins
      intro u td hu
      dsimp only at hu
      rw [getTD_setTD] at hu
      by_cases hut : u = t
      · rw [if_pos hut] at hu
        have := Option.some.inj hu
        subst this
        intro c idx hidx e he p hpe
        have hb := h t td0 htd c idx hidx e he p hpe
        show p < (td0.dataFile.getD [] ++ [r]).length
        simp only [List.length_append, List.length_cons, List.length_nil]
        omega
      · rw [if_neg hut] at hu
        exact h u td hu

theorem inv_createIndexState {st : DBState} (t c : String) (h : Inv st) :
    Inv (createIndexState st t c) := by
  intro u td hu
  rw [getTD_createIndexState] at hu
  by_cases hut : u = t
  · rw [if_pos hut] at hu
    have := Option.some.inj hu
    subst this
    intro c' idx hidx
    dsimp only at hidx
    rw [getIdx_setIdx] at hidx
    by_cases hcc : c' = c
    · rw [if_pos hcc] at hidx
      have := Option.some.inj hidx
      subst this
      intro e he p hpe
      have hb := buildIndex_bound (getAllRows st t) c e he p hpe
      rw [getAllRows_eq] at hb
      exact hb
    · rw [if_neg hcc] at hidx
      cases htd : getTD st.tables t with
      | none =>
          rw [htd] at hidx
          exact absurd hidx (by simp [getIdx])
      | some td0 =>
          rw [htd] at hidx
          exact h t td0 htd c' idx hidx
  · rw [if_neg hut] at hu
    exact h u td hu

theorem inv_deleteTableState {st : DBState} (t : String) (h : Inv st) :
    Inv (deleteTableState st t).2 := by
  unfold deleteTableState
  cases htd : getTD st.tables t with
  | none => exact h
  | some td0 =>
      intro u td hu
      dsimp only at hu
      rw [getTD_removeTD] at hu
      by_cases hut : u = t
      · rw [if_pos hut] at hu
        exact absurd hu (by simp)
      · rw [if_neg hut] at hu
        exact h u td hu

theorem execSelect_state (q : SelectQuery) (st : DBState) :
    (execSelect q st).2 = st := by
  unfold execSelect
  split
  · rfl
  · split <;> rfl

theorem execDelete_state (q : DeleteQuery) (st : DBState) :
    (execDelete q st).2 = st := by
  unfold execDelete
  dsimp only
  split <;> rfl

theorem inv_execUpdate {st : DBState} (q : UpdateQuery) (h : Inv st) :
    Inv (execUpdate q st).2 := by
  unfold execUpdate
  dsimp only
  split
  · exact h
  · split
    · exact inv_saveTableSchemaState _ _ h
    · exact h

theorem inv_execInsert {st : DBState} (q : InsertQuery) (h : Inv st) :
    Inv (execInsert q st).2 := by
  unfold execInsert
  dsimp only
  split
  · exact h
  · exact h
  · split
    · exact h
    · split
      · exact h
      · split
        · rename_i st2 heq
          exact inv_insertRowE h heq
        · exact h

theorem inv_execCreateTable {st : DBState} (q : CreateTableQuery) (h : Inv st) :
    Inv (execCreateTable q st).2 := by
  unfold execCreateTable
  dsimp only
  split
  · exact inv_createIndexState _ _ (inv_saveTableSchemaState _ _ h)
  · exact inv_saveTableSchemaState _ _ h

theorem inv_execDropTable {st : DBState} (q : DropTableQuery) (h : Inv st) :
    Inv (execDropTable q st).2 := by
  unfold execDropTable
  dsimp only
  split
  · exact inv_deleteTableState _ h
  · exact h

theorem step_inv {s s' : DBState} (h : Inv s) (hs : Step s s') : Inv s' := by
  cases hs with
  | exec q el =>
      show Inv (execDispatch q s).2
      cases q with
      | createT c => exact inv_execCreateTable c h
      | insertQ i => exact inv_execInsert i h
      | selectQ sq =>
          show Inv (execSelect sq s).2
          rw [execSelect_state]
          exact h
      | updateQ u => exact inv_execUpdate u h
      | deleteQ d =>
          show Inv (execDelete d s).2
          rw [execDelete_state]
          exact h
      | dropT d => exact inv_execDropTable d h
  | mkIndex tab col => exact inv_createIndexState tab col h

theorem reachable_inv {s : DBState} (h : Reachable s) : Inv s := by
  induction h with
  | base =>
      intro t td htd
      exact absurd htd (by simp [emptyState, getTD])
  | step _ hs ih => exact step_inv ih hs

theorem idxLookup_mem : ∀ (idx : IndexFile) (v : Value) (ps : List Nat),
    idxLookup idx v = some ps → ∃ k, (k, ps) ∈ idx := by
  intro idx v
  induction idx with
  | nil =>
      intro ps h
      exact absurd h (by simp [idxLookup])
  | cons e rest ih =>
      obtain ⟨k0, ps0⟩ := e
      intro ps h
      simp only [idxLookup] at h
      by_cases hk : pyEqValue k0 v = true
      · rw [if_pos hk] at h
        have := Option.some.inj h
        subst this
        exact ⟨k0, List.mem_cons_self _ _⟩
      · rw [if_neg hk] at h
        obtain ⟨k, hm⟩ := ih ps h
        exact ⟨k, List.mem_cons_of_mem _ hm⟩

theorem mapM_deref_ok (rows : List Row) :
    ∀ (ps : List Nat), (∀ p ∈ ps, p < rows.length) →
      ∃ lst, (ps.mapM (fun p =>
          match rows[p]? with
          | some r => Except.ok r
          | none => Except.error "list index out of range") : Except String (List Row))
        = .ok lst ∧ ∀ r ∈ lst, r ∈ rows := by
  intro ps
  induction ps with
  | nil =>
      intro _
      exact ⟨[], rfl, by simp⟩
  | cons p ps ih =>
      intro h
      have hp : p < rows.length := h p (List.mem_cons_self _ _)
      obtain ⟨lst, hlst, hmem⟩ := ih (fun p' hp' => h p' (List.mem_cons_of_mem _ hp'))
      have hget : rows[p]? = some rows[p] := List.getElem?_eq_getElem hp
      refine ⟨rows[p] :: lst, ?_, ?_⟩
      · rw [List.mapM_cons, hget, hlst]
        rfl
      · intro r hr
        rcases List.mem_cons.mp hr with hre | hr2
        · rw [hre]
          exact List.getElem_mem hp
        · exact hmem r hr2

/-- C3: over every reachable storage state, an index lookup never
dereferences a position outside the current row store: get_by_index
always succeeds and every row it returns is an element of the freshly
read store.  The invariant holds because inserts only append, index
creation scans the current store, and the UPDATE and DELETE pipelines
never rewrite data.pkl at all (UPDATE lands in schema.json, DELETE is
never persisted), so positions can never go stale. -/
theorem c3_index_lookup_within_store :
    ∀ (st : DBState), Reachable st → ∀ (t c : String) (v : Value),
      ∃ lst, getByIndex st t c v = .ok lst ∧ ∀ r ∈ lst, r ∈ getAllRows st t := by
  intro st hr t c v
  have hinv := reachable_inv hr
  unfold getByIndex
  cases htd : getTD st.tables t with
  | none => exact ⟨[], rfl, by simp⟩
  | some td =>
      dsimp only
      cases hidx : getIdx td.indexFiles c with
      | none => exact ⟨[], rfl, by simp⟩
      | some idx =>
          dsimp only
          cases hlk : idxLookup idx v with
          | none => exact ⟨[], rfl, by simp⟩
          | some ps =>
              dsimp only
              obtain ⟨k, hkmem⟩ := idxLookup_mem idx v ps hlk
              have hbound : ∀ p ∈ ps, p < (getAllRows st t).length := by
                intro p hp
                have := hinv t td htd c idx hidx (k, ps) hkmem p hp
                rw [getAllRows_eq, htd]
                exact this
              exact mapM_deref_ok (getAllRows st t) ps hbound

/-- C3 witness: in the concrete reachable state with one inserted row
and a freshly built id index, the lookup returns rows of the current
store. -/
theorem c3_witness :
    ∃ lst, getByIndex c3WitState "users" "id" (.strV "1") = .ok lst ∧
      ∀ r ∈ lst, r ∈ getAllRows c3WitState "users" :=
  c3_index_lookup_within_store c3WitState
    (Reachable.step
      (Reachable.step
        (Reachable.step Reachable.base (Step.exec (.createT usersCreate) 0 emptyState))
        (Step.exec (.insertQ insJohn) 0 usersSt1))
      (Step.mkIndex "users" "id" usersSt2))
    "users" "id" (.strV "1")

/-! ## Join characterization (claim C6) -/

/-- C6 counterexample: with a left row holding the int 1 in column a
and a right row holding the string 1 in column b, the code merges the
pair (it joins on stringified values) although the two values are not
equal, so the claimed value-equality join semantics is refuted. -/
theorem c6_counterexample_stringified_match :
    execJoin [[("a", .intV 1)]] c6Q c6St =
      .ok [[("a", .intV 1), ("b", .strV "1")]] ∧
    claimJoinRows [[("a", .intV 1)]] [[("b", .strV "1")]] "a" "b" "r" = [] := by
  decide



theorem mergeRows_star (l r : Row) (tbl : String) :
    mergeRows l r tbl ["*"] = .ok (mergePlain l r tbl) := rfl

theorem mapM_merge_star (tbl : String) (l : Row) :
    ∀ g : List Row, g.mapM (fun r => mergeRows l r tbl ["*"]) =
      .ok (g.map (fun r => mergePlain l r tbl)) := by
  intro g
  induction g with
  | nil => rfl
  | cons r rs ih =>
      rw [List.mapM_cons, mergeRows_star, ih]
      rfl

theorem lookupGroup_strDictAppend (d : List (String × List Row)) (k0 : String)
    (r : Row) (k : String) :
    lookupGroup (strDictAppend d k0 r) k =
      if k = k0 then some ((lookupGroup d k).getD [] ++ [r])
      else lookupGroup d k := by
  induction d with
  | nil =>
      by_cases hk : k = k0
      · subst hk
        simp [strDictAppend, lookupGroup]
      · have hk' : ¬ k0 = k := fun h => hk h.symm
        simp [strDictAppend, lookupGroup, hk, hk']
  | cons e rest ih =>
      obtain ⟨k1, g⟩ := e
      by_cases h10 : k1 = k0
      · subst h10
        by_cases hk1 : k1 = k
        · subst hk1
          simp [strDictAppend, lookupGroup]
        · have hk1' : ¬ k = k1 := fun h => hk1 h.symm
          simp [strDictAppend, lookupGroup, hk1, hk1']
      · by_cases hk1 : k1 = k
        · subst hk1
          have hk0 : ¬ k1 = k0 := h10
          simp [strDictAppend, lookupGroup, h10, hk0]
        · simp [strDictAppend, lookupGroup, h10, hk1, ih]

theorem lookupGroup_buildLookupAux (b k : String) :
    ∀ (R : List Row) (acc : List (String × List Row)),
      lookupGroup (buildLookupAux R b acc) k =
        match lookupGroup acc k with
        | some g => some (g ++ R.filter (fun r => pyGetStr r b == k))
        | none =>
            if R.filter (fun r => pyGetStr r b == k) = [] then none
            else some (R.filter (fun r => pyGetStr r b == k)) := by
  intro R
  induction R with
  | nil =>
      intro acc
      show lookupGroup acc k = _
      cases h : lookupGroup acc k with
      | none => simp
      | some g => simp
  | cons r rs ih =>
      intro acc
      rw [show buildLookupAux (r :: rs) b acc
          = buildLookupAux rs b (strDictAppend acc (pyGetStr r b) r) from rfl, ih]
      rw [lookupGroup_strDictAppend]
      by_cases hk : k = pyGetStr r b
      · have hbeq : (pyGetStr r b == k) = true := by
          rw [hk]
          exact beq_self_eq_true _
        have hfil : List.filter (fun r' => pyGetStr r' b == k) (r :: rs)
            = r :: List.filter (fun r' => pyGetStr r' b == k) rs := by
          rw [List.filter_cons, if_pos hbeq]
        rw [if_pos hk, hfil]
        cases hacc : lookupGroup acc k with
        | some g => simp
        | none => simp
      · have hbeq : (pyGetStr r b == k) = false := by
          exact beq_eq_false_iff_ne.mpr (fun h => hk h.symm)
        have hfil : List.filter (fun r' => pyGetStr r' b == k) (r :: rs)
            = List.filter (fun r' => pyGetStr r' b == k) rs := by
          rw [List.filter_cons, if_neg (by simp [hbeq])]
        rw [if_neg hk, hfil]

/-- One probe of the hash join: the group found for the left key is
exactly the right rows whose stringified join cell equals it. -/
theorem probe_one (R : List Row) (b tbl : String) (l : Row) (k : String) :
    (match lookupGroup (buildLookupAux R b []) k with
     | some g => g.mapM (fun r => mergeRows l r tbl ["*"])
     | none => (pure [] : Except String (List Row))) =
      .ok ((R.filter (fun r => pyGetStr r b == k)).map (fun r => mergePlain l r tbl)) := by
  rw [lookupGroup_buildLookupAux]
  simp only [lookupGroup]
  by_cases hf : R.filter (fun r => pyGetStr r b == k) = []
  · rw [if_pos hf, hf]
    rfl
  · rw [if_neg hf]
    exact mapM_merge_star tbl l _

theorem mapM_ok_congr {α : Type} (f : Row → Except String α) (g : Row → α) :
    ∀ L : List Row, (∀ l ∈ L, f l = .ok (g l)) → L.mapM f = .ok (L.map g) := by
  intro L
  induction L with
  | nil => intro _; rfl
  | cons x xs ih =>
      intro h
      rw [List.mapM_cons, h x (List.mem_cons_self _ _),
        ih (fun l hl => h l (List.mem_cons_of_mem _ hl))]
      rfl

/-- C6 amended: with both ON columns resolved exactly against the
sample rows and SELECT *, the join returns the merged rows of exactly
those pairs whose join cells are equal after stringification
(str(left.get(a, '')) equals str(right.get(b, ''))), in order; when the
ON clause parses to no usable columns (absent, or lacking an equals
sign), the result is the full cross product of sizes times each other.
An ON clause naming a column absent from a nonempty table yields an
error instead (outside this statement). -/
theorem c6_join_matches_on_stringified_values :
    (∀ (st : DBState) (jc : JoinClause) (q : SelectQuery) (L : List Row) (a b : String),
      q.joinClause = some jc → q.columns = ["*"] →
      parseOnCols jc.onClause = (a, b) → a ≠ "" → b ≠ "" →
      L ≠ [] → getAllRows st jc.table ≠ [] →
      hasKey (L.headD []) a = true →
      hasKey ((getAllRows st jc.table).headD []) b = true →
      execJoin L q st = .ok ((L.map (fun l =>
        ((getAllRows st jc.table).filter
          (fun r => pyGetStr r b == pyGetStr l a)).map
            (fun r => mergePlain l r jc.table))).flatten)) ∧
    (∀ (st : DBState) (jc : JoinClause) (q : SelectQuery) (L : List Row),
      q.joinClause = some jc → q.columns = ["*"] →
      parseOnCols jc.onClause = ("", "") →
      ∃ res, execJoin L q st = .ok res ∧
        res.length = L.length * (getAllRows st jc.table).length) := by
  constructor
  · intro st jc q L a b hjc hcols hparse ha hb hL hR hkeyL hkeyR
    unfold execJoin
    rw [hjc]
    dsimp only
    rw [if_neg hR]
    simp only [hparse, hcols]
    rw [if_pos ⟨ha, hL⟩, if_pos hkeyL, if_pos ⟨hb, hR⟩, if_pos hkeyR]
    dsimp only [Bind.bind, Except.bind]
    rw [if_neg (not_or.mpr ⟨ha, hb⟩)]
    have hmap := mapM_ok_congr
      (fun l => match lookupGroup (buildLookupAux (getAllRows st jc.table) b [])
          (pyGetStr l a) with
        | some g => g.mapM (fun r => mergeRows l r jc.table ["*"])
        | none => (pure [] : Except String (List Row)))
      (fun l => ((getAllRows st jc.table).filter
        (fun r => pyGetStr r b == pyGetStr l a)).map (fun r => mergePlain l r jc.table))
      L (fun l _ => probe_one (getAllRows st jc.table) b jc.table l (pyGetStr l a))
    rw [hmap]
    rfl
  · intro st jc q L hjc hcols hparse
    unfold execJoin
    rw [hjc]
    dsimp only
    by_cases hR : getAllRows st jc.table = []
    · rw [if_pos hR]
      refine ⟨[], rfl, ?_⟩
      rw [hR]
      simp
    · rw [if_neg hR]
      simp only [hparse, hcols]
      rw [if_neg (show ¬((("" : String), ("" : String)).1 ≠ "" ∧ L ≠ []) by simp),
        if_neg (show ¬((("" : String), ("" : String)).2 ≠ "" ∧
          getAllRows st jc.table ≠ []) by simp)]
      dsimp only [Bind.bind, Except.bind]
      rw [if_pos (show ("" : String) = "" ∨ ("" : String) = "" from Or.inl rfl)]
      have hmap := mapM_ok_congr
        (fun l => (getAllRows st jc.table).mapM (fun r => mergeRows l r jc.table ["*"]))
        (fun l => (getAllRows st jc.table).map (fun r => mergePlain l r jc.table))
        L (fun l _ => mapM_merge_star jc.table l (getAllRows st jc.table))
      rw [hmap]
      refine ⟨(L.map (fun l => (getAllRows st jc.table).map
        (fun r => mergePlain l r jc.table))).flatten, rfl, ?_⟩
      rw [List.length_flatten, List.map_map]
      have hsum : ∀ (L' : List Row) (n : Nat),
          (L'.map (fun _ => n)).sum = L'.length * n := by
        intro L' n
        induction L' with
        | nil => simp
        | cons x xs ih =>
            simp only [List.map_cons, List.sum_cons, List.length_cons, ih]
            ring
      have hcomp : (List.length ∘ fun l =>
          (getAllRows st jc.table).map (fun r => mergePlain l r jc.table))
          = fun _ => (getAllRows st jc.table).length := by
        funext l
        simp
      rw [hcomp, hsum]


/-- C1: the spec requires DELETE to persist the survivors before
reporting success, so that a subsequent SELECT * sees only them and the
row count drops by the number of matches.  The executor reports one row
deleted on a matching DELETE but leaves the storage state untouched, and
the subsequent SELECT * still returns both original rows: evaluating the
embedded executor at the failing input exhibits the divergence. -/
theorem c1_delete_reports_but_never_persists :
    (executeQE c1Delete c1State 0).1.count = some 1 ∧
    (executeQE c1Delete c1State 0).1.error = none ∧
    (executeQE c1Delete c1State 0).2 = c1State ∧
    (executeQE (.selectQ { columns := ["*"], tableName := "t" })
        (executeQE c1Delete c1State 0).2 0).1.rows =
      some [[("id", .intV 1)], [("id", .intV 2)]] := by decide

/-- C2: the spec scenario inserts (1, John) then (1, Jane) into a table
whose id column is the PRIMARY KEY and requires the second insert to
fail with the table keeping exactly the first row.  The constraint loop
only checks columns whose constraint list contains the UNIQUE keyword,
and a PRIMARY KEY column carries only PRIMARY KEY, so the duplicate is
accepted and both rows are persisted. -/
theorem c2_pk_duplicate_accepted :
    (executeQE (.insertQ insJohn) usersSt1 0).1.error = none ∧
    (executeQE (.insertQ insJane) usersSt2 0).1.error = none ∧
    getAllRows usersSt3 "users" =
      [[("id", .strV "1"), ("name", .strV "John")],
       [("id", .strV "1"), ("name", .strV "Jane")]] := by decide

/-- C4 counterexample: the row-insert write goes straight to data.pkl
with no rename anywhere in the trace, so the write-to-temporary-then-
atomic-replace discipline the claim states is violated already by
insert_row on an existing table. -/
theorem c4_counterexample_no_temp_file :
    usesTempAtomicReplace (insertRowTrace c4State "testdb" "t") = false := by decide

/-- C4 amended: every mutating write of the storage layer writes the new
content directly, in place, to the final target file (data.pkl,
schema.json or meta.json); no temporary file and no atomic rename are
involved. -/
theorem c4_mutating_writes_are_in_place :
    ∀ (st : DBState) (db t : String),
      writesDirectly (insertRowTrace st db t) [dataFilePath db t] = true ∧
      writesDirectly (updateRowsTrace st db t) [dataFilePath db t] = true ∧
      writesDirectly (saveTableSchemaTrace st db t)
        [schemaFilePath db t, metaFilePath db] = true ∧
      writesDirectly (saveMetadataTrace db) [metaFilePath db] = true := by
  intro st db t
  refine ⟨?_, ?_, ?_, ?_⟩
  · unfold insertRowTrace writesDirectly
    split <;> simp
  · unfold updateRowsTrace writesDirectly
    split <;> simp
  · unfold saveTableSchemaTrace writesDirectly
    split <;> split <;> simp
  · unfold saveMetadataTrace writesDirectly
    simp

/-- The update loop is the filter-and-map closure of its single-row
string-equality test. -/
theorem updateLoop_spec (rows : List Row) (w : Option String)
    (setC : List (String × Value)) :
    updateLoop rows w setC =
      (rows.map (fun r => if updMatchRow w r then applySet setC r else r),
       (rows.filter (updMatchRow w)).length) := by
  induction rows with
  | nil => rfl
  | cons r rs ih =>
      by_cases h : updMatchRow w r = true <;>
        simp [updateLoop, ih, h, List.filter_cons]

/-- C5 counterexample: on the clause id larger than 3 with a row whose
id is 2, SELECT's WHERE evaluation keeps nothing, while the UPDATE path
finds no equals sign, leaves should_update true and modifies the row:
the two selections differ, refuting the claimed equivalence. -/
theorem c5_counterexample_operator_ignored :
    (updateLoop [[("id", .intV 2)]] (some "id > 3") []).2 = 1 ∧
    applyWhere [[("id", .intV 2)]] "id > 3" = [] := by decide

/-- C5 amended: UPDATE selects rows by its own policy, not SELECT's: the
clause is split once at the first equals sign and a row matches when its
stringified cell equals the quote-stripped literal; a clause without an
equals sign (any of the other five operators) selects every row.  The
executor's changed-row count is exactly the count of rows matching that
string-equality policy. -/
theorem c5_update_where_is_string_equality_only :
    (∀ (rows : List Row) (w : Option String) (setC : List (String × Value)),
      updateLoop rows w setC =
        (rows.map (fun r => if updMatchRow w r then applySet setC r else r),
         (rows.filter (updMatchRow w)).length)) ∧
    (∀ (q : UpdateQuery) (st : DBState), getAllRows st q.tableName ≠ [] →
      (execUpdate q st).1.count =
        some ((getAllRows st q.tableName).filter (updMatchRow q.whereClause)).length) := by
  constructor
  · exact updateLoop_spec
  · intro q st h
    unfold execUpdate
    simp only [if_neg h, updateLoop_spec]

/-- C5 witness: instantiating the amended claim at a concrete update. -/
theorem c5_witness :
    getAllRows c1State "t" ≠ [] ∧
    (execUpdate c5Update c1State).1.count =
      some ((getAllRows c1State "t").filter
        (updMatchRow (some "id=1"))).length :=
  ⟨by decide,
   c5_update_where_is_string_equality_only.2 c5Update c1State (by decide)⟩

/-- C8: for every parsed statement the executor returns a structured
result dict: the success flag is set exactly when no error key is
present and the execution time is attached; no exception escapes, each
stage handler having caught its own failures (the embedded stages are
total for that reason). -/
theorem c8_execute_returns_structured_result :
    ∀ (q : PQuery) (st : DBState) (t : Nat),
      (executeQE q st t).1.success = some (executeQE q st t).1.error.isNone ∧
      (executeQE q st t).1.execTime = some t := by
  intro q st t
  exact ⟨rfl, rfl⟩

/-- An uppercased token outside the seven supported names makes the
DataType conversion raise ValueError. -/
theorem dataTypeFromString_eq_none (s : String)
    (h : s ∉ supportedTypeNames) : dataTypeFromString s = none := by
  simp only [supportedTypeNames, List.mem_cons, List.not_mem_nil, or_false, not_or] at h
  obtain ⟨h1, h2, h3, h4, h5, h6, h7⟩ := h
  simp [dataTypeFromString, h1, h2, h3, h4, h5, h6, h7]

/-- The data type parseOneColumn assigns is the enum conversion of the
declared type token with TEXT as fallback. -/
theorem parseOneColumn_dataType (cd : String) :
    (parseOneColumn cd).dataType =
      (dataTypeFromString (declaredTypeToken cd)).getD .TEXT := by
  unfold parseOneColumn declaredTypeToken
  dsimp only
  split <;> rfl

/-- C9: a column whose declared type token is not one of the seven
supported data type names is silently assigned TEXT by the CREATE TABLE
column parser (the conversion failure is swallowed), and the column
parser has no failure path. -/
theorem c9_unknown_type_token_becomes_text :
    ∀ cd : String, declaredTypeToken cd ∉ supportedTypeNames →
      (parseOneColumn cd).dataType = DataType.TEXT := by
  intro cd h
  rw [parseOneColumn_dataType, dataTypeFromString_eq_none _ h]
  rfl

/-- C9 witness: a FLOAT column parses with data type TEXT. -/
theorem c9_witness :
    declaredTypeToken "price FLOAT" ∉ supportedTypeNames ∧
    (parseOneColumn "price FLOAT").dataType = DataType.TEXT :=
  ⟨by decide, c9_unknown_type_token_becomes_text "price FLOAT" (by decide)⟩

/-- C10: a successful SELECT derives its column list from the keys of
the first result row (and its count from the result length), so an
empty result reports an empty column list and a count of zero instead
of the schema columns. -/
theorem c10_select_columns_from_first_row :
    ∀ (q : SelectQuery) (st : DBState),
      (execSelect q st).1.error = none →
      ∃ rs, (execSelect q st).1.rows = some rs ∧
        (execSelect q st).1.columns = some (headKeys rs) ∧
        (execSelect q st).1.count = some rs.length ∧
        (rs = [] →
          (execSelect q st).1.columns = some [] ∧
          (execSelect q st).1.count = some 0) := by
  intro q st
  unfold execSelect
  split
  · intro h
    exact absurd h (by simp [errResult])
  · cases hj : joinedRows q st with
    | error e =>
        intro h
        exact absurd h (by simp [errResult])
    | ok rows1 =>
        intro _
        refine ⟨selectStages q rows1, rfl, rfl, rfl, fun he => ?_⟩
        constructor
        · show (selectResult (selectStages q rows1)).columns = some []
          rw [selectResult, he]
          rfl
        · show (selectResult (selectStages q rows1)).count = some 0
          rw [selectResult, he]
          rfl

/-- C10 witness: a SELECT with a WHERE matching nothing succeeds with
an empty column list and zero count. -/
theorem c10_witness :
    (execSelect c10Query c1State).1.error = none ∧
    ∃ rs, (execSelect c10Query c1State).1.rows = some rs ∧
      (execSelect c10Query c1State).1.columns = some (headKeys rs) ∧
      (execSelect c10Query c1State).1.count = some rs.length ∧
      (rs = [] →
        (execSelect c10Query c1State).1.columns = some [] ∧
        (execSelect c10Query c1State).1.count = some 0) :=
  ⟨by decide, c10_select_columns_from_first_row c10Query c1State (by decide)⟩


/-- C6 witness: the amended statement instantiated at a concrete join
with matching strings, and at a concrete ON-less cross product. -/
theorem c6_witness :
    (execJoin [[("a", .strV "1")]] c6Q c6St =
      .ok (([[("a", Value.strV "1")]].map (fun l =>
        ((getAllRows c6St c6Jc.table).filter
          (fun r => pyGetStr r "b" == pyGetStr l "a")).map
            (fun r => mergePlain l r c6Jc.table))).flatten)) ∧
    ∃ res, execJoin [[("a", .strV "1")]] c6QNoOn c6St = .ok res ∧
      res.length =
        [[("a", Value.strV "1")]].length * (getAllRows c6St c6JcNoOn.table).length :=
  ⟨c6_join_matches_on_stringified_values.1 c6St c6Jc c6Q [[("a", .strV "1")]] "a" "b"
      rfl rfl (by decide) (by decide) (by decide) (by decide) (by decide)
      (by decide) (by decide),
    c6_join_matches_on_stringified_values.2 c6St c6JcNoOn c6QNoOn [[("a", .strV "1")]]
      rfl rfl (by decide)⟩

end MyRDBMS
